import Mathlib

/-!
Verification of the AkaiAPCmini event pipeline and transport against its
specification.

The development shallowly embeds the relevant C++ sources:

* `src/src/midi_message_queue.{h,cpp}` — the lock-free ring buffer
  (`MIDIMessageQueue`), embedded as a state record plus pure transition
  functions `Enqueue`, `Dequeue`, `Peek`, `GetQueueDepth`, `IsEmpty`,
  `IsFull`.  The `system_time()` clock is passed explicitly as a `now`
  argument.  32-bit counters are modelled as `Nat` reduced modulo `2 ^ 32`
  exactly where the C++ uses `uint32_t` arithmetic.  The latency/depth
  statistics fields (`total_latency_us`, `max_latency_us`,
  `max_queue_depth`, `source_counts`) are measurement-only fields that no
  claim references and are omitted from the state record.
* `src/src/midi_event_handler.{h,cpp}` — filtering, feedback suppression,
  callback registration and the batch drain loop.
* `src/src/usb_haiku_midi.cpp` / `src/src/usb_raw_midi.cpp` — the SysEx
  chunker, the send paths with their error counters, and the pause/resume
  reader handshake.
-/

namespace AkaiAPCmini

/-- Queue capacity: `MIDI_QUEUE_SIZE = 1 << 12` (midi_message_queue.h). -/
def MIDI_QUEUE_SIZE : Nat := 4096

/-- Modulus of `uint32_t` arithmetic. -/
def UINT32_MOD : Nat := 2 ^ 32

/-- The `MIDIMessage` struct of midi_message_queue.h.  `bigtime_t`
timestamps are microseconds, modelled as `Nat`. -/
structure MIDIMessage where
  status : Nat
  data1 : Nat
  data2 : Nat
  source : Nat
  priority : Nat
  sysex_length : Nat
  timestamp : Nat
  sequence : Nat
deriving DecidableEq, Repr

/-- Default-constructed `MIDIMessage` (status 0, priority 2, all else 0). -/
def defaultMsg : MIDIMessage :=
  { status := 0, data1 := 0, data2 := 0, source := 0, priority := 2,
    sysex_length := 0, timestamp := 0, sequence := 0 }

/-- Point update of the ring-buffer array, modelled as a function. -/
def setSlot (f : Nat → MIDIMessage) (i : Nat) (v : MIDIMessage) :
    Nat → MIDIMessage :=
  fun j => if j = i then v else f j

/-- State of a `MIDIMessageQueue`: the ring buffer, the two indices, the
sequence counter and the statistics counters the claims refer to. -/
structure MIDIMessageQueue where
  buffer : Nat → MIDIMessage
  write_index : Nat
  read_index : Nat
  sequence_counter : Nat
  messages_enqueued : Nat
  messages_dequeued : Nat
  messages_dropped : Nat
  overflow_events : Nat

/-- Freshly constructed queue: zero indices and counters, buffer
default-initialised (MIDIMessageQueue constructor). -/
def initQueue : MIDIMessageQueue :=
  { buffer := fun _ => defaultMsg, write_index := 0, read_index := 0,
    sequence_counter := 0, messages_enqueued := 0, messages_dequeued := 0,
    messages_dropped := 0, overflow_events := 0 }

/-- `GetNextIndex`: `(current + 1) & MIDI_QUEUE_MASK`; for the power-of-two
size this bitmask is reduction modulo `MIDI_QUEUE_SIZE`. -/
def GetNextIndex (current : Nat) : Nat := (current + 1) % MIDI_QUEUE_SIZE

/-- The message actually stored by `Enqueue`: the sequence number is taken
from the counter, and the timestamp is filled from the clock only when the
incoming timestamp is unset (0). -/
def stampMsg (now : Nat) (seq : Nat) (m : MIDIMessage) : MIDIMessage :=
  { m with sequence := seq,
           timestamp := if m.timestamp = 0 then now else m.timestamp }

/-- `MIDIMessageQueue::Enqueue` (midi_message_queue.cpp, lines 29-74):
full-check against the read index, drop-and-count on overflow, otherwise
stamp sequence/timestamp, store at the write position, advance the write
index, bump the enqueued counter.  Returns the new state and the C++
boolean result. -/
def Enqueue (now : Nat) (message : MIDIMessage) (q : MIDIMessageQueue) :
    MIDIMessageQueue × Bool :=
  let current_write := q.write_index
  let next_write := GetNextIndex current_write
  let current_read := q.read_index
  if next_write = current_read then
    ({ q with messages_dropped := q.messages_dropped + 1,
              overflow_events := q.overflow_events + 1 }, false)
  else
    let msg_copy := stampMsg now q.sequence_counter message
    ({ q with buffer := setSlot q.buffer current_write msg_copy,
              sequence_counter := (q.sequence_counter + 1) % UINT32_MOD,
              write_index := next_write,
              messages_enqueued := q.messages_enqueued + 1 }, true)

/-- `MIDIMessageQueue::Dequeue` (midi_message_queue.cpp, lines 82-110):
empty-check, read the slot, advance the read index, bump the dequeued
counter.  The C++ out-parameter plus `bool` is modelled as an `Option`. -/
def Dequeue (q : MIDIMessageQueue) : MIDIMessageQueue × Option MIDIMessage :=
  let current_read := q.read_index
  let current_write := q.write_index
  if current_read = current_write then (q, none)
  else
    let message := q.buffer current_read
    ({ q with read_index := GetNextIndex current_read,
              messages_dequeued := q.messages_dequeued + 1 }, some message)

/-- `MIDIMessageQueue::Peek` (midi_message_queue.cpp, lines 112-127). -/
def Peek (q : MIDIMessageQueue) : Option MIDIMessage :=
  if q.read_index = q.write_index then none else some (q.buffer q.read_index)

/-- `MIDIMessageQueue::GetQueueDepth` (midi_message_queue.cpp, 129-141). -/
def GetQueueDepth (q : MIDIMessageQueue) : Nat :=
  if q.read_index ≤ q.write_index then q.write_index - q.read_index
  else (MIDI_QUEUE_SIZE - q.read_index) + q.write_index

/-- `MIDIMessageQueue::IsEmpty` (midi_message_queue.cpp, 143-147). -/
def IsEmpty (q : MIDIMessageQueue) : Bool := q.read_index = q.write_index

/-- `MIDIMessageQueue::IsFull` (midi_message_queue.cpp, 149-154). -/
def IsFull (q : MIDIMessageQueue) : Bool :=
  GetNextIndex q.write_index = q.read_index

/-- State after `k` successive `Enqueue` calls from an empty queue, the
`k`-th call using clock value `times k` and message `msgs k`. -/
def enqueueIter (times : Nat → Nat) (msgs : Nat → MIDIMessage) :
    Nat → MIDIMessageQueue
  | 0 => initQueue
  | k + 1 => (Enqueue (times k) (msgs k) (enqueueIter times msgs k)).1

/-- State after `n` successive `Dequeue` calls. -/
def dequeueIter (q : MIDIMessageQueue) : Nat → MIDIMessageQueue
  | 0 => q
  | n + 1 => dequeueIter (Dequeue q).1 n

theorem Enqueue_of_full (now : Nat) (m : MIDIMessage) (q : MIDIMessageQueue)
    (h : GetNextIndex q.write_index = q.read_index) :
    Enqueue now m q =
      ({ q with messages_dropped := q.messages_dropped + 1,
                overflow_events := q.overflow_events + 1 }, false) := by
  simp [Enqueue, h]

theorem Enqueue_of_notFull (now : Nat) (m : MIDIMessage)
    (q : MIDIMessageQueue) (h : GetNextIndex q.write_index ≠ q.read_index) :
    Enqueue now m q =
      ({ q with
          buffer := setSlot q.buffer q.write_index
            (stampMsg now q.sequence_counter m),
          sequence_counter := (q.sequence_counter + 1) % UINT32_MOD,
          write_index := GetNextIndex q.write_index,
          messages_enqueued := q.messages_enqueued + 1 }, true) := by
  simp [Enqueue, h]

theorem Dequeue_of_empty (q : MIDIMessageQueue)
    (h : q.read_index = q.write_index) :
    Dequeue q = (q, none) := by
  simp [Dequeue, h]

theorem Dequeue_of_notEmpty (q : MIDIMessageQueue)
    (h : q.read_index ≠ q.write_index) :
    Dequeue q =
      ({ q with read_index := GetNextIndex q.read_index,
                messages_dequeued := q.messages_dequeued + 1 },
       some (q.buffer q.read_index)) := by
  simp [Dequeue, h]

/-- Filling an empty queue: after `k ≤ 4095` enqueues the write index is
`k`, the read index is still 0 and nothing has been dropped. -/
theorem enqueueIter_state (times : Nat → Nat) (msgs : Nat → MIDIMessage) :
    ∀ k, k ≤ 4095 →
      (enqueueIter times msgs k).write_index = k ∧
      (enqueueIter times msgs k).read_index = 0 ∧
      (enqueueIter times msgs k).messages_dropped = 0 := by
  intro k
  induction k with
  | zero => intro _; exact ⟨rfl, rfl, rfl⟩
  | succ k ih =>
    intro hk
    obtain ⟨hw, hr, hd⟩ := ih (Nat.le_of_succ_le hk)
    have hnext : GetNextIndex (enqueueIter times msgs k).write_index ≠
        (enqueueIter times msgs k).read_index := by
      rw [hw, hr, GetNextIndex, MIDI_QUEUE_SIZE]
      rw [Nat.mod_eq_of_lt (by omega)]
      omega
    have hstep := Enqueue_of_notFull (times k) (msgs k)
      (enqueueIter times msgs k) hnext
    refine ⟨?_, ?_, ?_⟩ <;>
      simp [enqueueIter, hstep, hw, hr, hd, GetNextIndex, MIDI_QUEUE_SIZE,
        Nat.mod_eq_of_lt (by omega : k + 1 < 4096)]

/-- Each of the first 4095 enqueues from empty returns `true`. -/
theorem enqueueIter_returns_true (times : Nat → Nat)
    (msgs : Nat → MIDIMessage) :
    ∀ k, k < 4095 →
      (Enqueue (times k) (msgs k) (enqueueIter times msgs k)).2 = true := by
  intro k hk
  obtain ⟨hw, hr, _⟩ := enqueueIter_state times msgs k (Nat.le_of_lt hk)
  have hnext : GetNextIndex (enqueueIter times msgs k).write_index ≠
      (enqueueIter times msgs k).read_index := by
    rw [hw, hr, GetNextIndex, MIDI_QUEUE_SIZE, Nat.mod_eq_of_lt (by omega)]
    omega
  rw [Enqueue_of_notFull _ _ _ hnext]

/-- Draining: `n` dequeues advance the read index by `n` and touch neither
the write index nor the buffer, as long as `n` messages are present and no
wraparound occurs. -/
theorem dequeueIter_state :
    ∀ (n : Nat) (q : MIDIMessageQueue),
      q.read_index + n ≤ q.write_index → q.write_index ≤ 4095 →
      (dequeueIter q n).read_index = q.read_index + n ∧
      (dequeueIter q n).write_index = q.write_index ∧
      (dequeueIter q n).buffer = q.buffer ∧
      (dequeueIter q n).messages_dropped = q.messages_dropped := by
  intro n
  induction n with
  | zero => intro q _ _; exact ⟨rfl, rfl, rfl, rfl⟩
  | succ n ih =>
    intro q hn hw
    have hne : q.read_index ≠ q.write_index := by omega
    have hstep := Dequeue_of_notEmpty q hne
    have hread : GetNextIndex q.read_index = q.read_index + 1 := by
      rw [GetNextIndex, MIDI_QUEUE_SIZE, Nat.mod_eq_of_lt (by omega)]
    have := ih (Dequeue q).1 (by rw [hstep]; simp [hread]; omega)
      (by rw [hstep]; simpa using hw)
    rw [hstep] at this
    simp only [hread] at this
    refine ⟨?_, ?_, ?_, ?_⟩
    all_goals simp [dequeueIter, hstep, this.1, this.2.1, this.2.2.1,
      this.2.2.2, hread]
    all_goals omega

/-- The overflow scenario, proved at a generic index `k = 4095` so that no
definitional unfolding at a large literal is ever needed. -/
theorem scenarioAux (times : Nat → Nat) (msgs : Nat → MIDIMessage)
    (k : Nat) (hk : k = 4095) :
    (Enqueue (times k) (msgs k) (enqueueIter times msgs k)).2 = false ∧
    (enqueueIter times msgs (k + 1)).messages_dropped = 1 ∧
    GetQueueDepth (dequeueIter (enqueueIter times msgs (k + 1)) k) = 0 ∧
    IsEmpty (dequeueIter (enqueueIter times msgs (k + 1)) k) = true := by
  obtain ⟨hw, hr, hd⟩ := enqueueIter_state times msgs k (by omega)
  have hfull : GetNextIndex (enqueueIter times msgs k).write_index =
      (enqueueIter times msgs k).read_index := by
    rw [hw, hr, GetNextIndex, MIDI_QUEUE_SIZE]
    omega
  have hstep := Enqueue_of_full (times k) (msgs k)
    (enqueueIter times msgs k) hfull
  have hstep2 : enqueueIter times msgs (k + 1) =
      (Enqueue (times k) (msgs k) (enqueueIter times msgs k)).1 := by
    rw [enqueueIter]
  have hx : (enqueueIter times msgs (k + 1)).read_index = 0 := by
    rw [hstep2, hstep]
    exact hr
  have hy : (enqueueIter times msgs (k + 1)).write_index = k := by
    rw [hstep2, hstep]
    exact hw
  have hd1 : (enqueueIter times msgs (k + 1)).messages_dropped = 1 := by
    rw [hstep2, hstep]
    show (enqueueIter times msgs k).messages_dropped + 1 = 1
    rw [hd]
  have hdrain := dequeueIter_state k (enqueueIter times msgs (k + 1))
    (by omega) (by omega)
  refine ⟨by rw [hstep], hd1, ?_, ?_⟩
  · rw [GetQueueDepth, hdrain.1, hdrain.2.1, hx, hy]
    have hle : (0 : Nat) + k ≤ k := by omega
    rw [if_pos hle]
    omega
  · rw [IsEmpty, hdrain.1, hdrain.2.1, hx, hy]
    simp only [decide_eq_true_eq]
    omega

/-- Claim C1: enqueueing into a full queue returns `false`, increments the
drop counter by exactly 1, and leaves the buffer and both indices
untouched; and in the spec scenario, starting from an empty queue with no
consumer, the first 4095 enqueues return `true`, the 4096th returns
`false` with a drop count of 1, and fully draining the queue afterwards
returns the reported depth to 0. -/
theorem C1_full_enqueue_drops_and_scenario :
    (∀ (now : Nat) (m : MIDIMessage) (q : MIDIMessageQueue),
       IsFull q = true →
       (Enqueue now m q).2 = false ∧
       (Enqueue now m q).1.messages_dropped = q.messages_dropped + 1 ∧
       (Enqueue now m q).1.buffer = q.buffer ∧
       (Enqueue now m q).1.write_index = q.write_index ∧
       (Enqueue now m q).1.read_index = q.read_index) ∧
    (∀ (times : Nat → Nat) (msgs : Nat → MIDIMessage),
       (∀ k, k < 4095 →
          (Enqueue (times k) (msgs k) (enqueueIter times msgs k)).2 = true) ∧
       (Enqueue (times 4095) (msgs 4095)
          (enqueueIter times msgs 4095)).2 = false ∧
       (enqueueIter times msgs 4096).messages_dropped = 1 ∧
       GetQueueDepth (dequeueIter (enqueueIter times msgs 4096) 4095) = 0 ∧
       IsEmpty (dequeueIter (enqueueIter times msgs 4096) 4095) = true) := by
  constructor
  · intro now m q hfull
    have h : GetNextIndex q.write_index = q.read_index := by
      simpa [IsFull] using hfull
    rw [Enqueue_of_full now m q h]
    exact ⟨rfl, rfl, rfl, rfl, rfl⟩
  · intro times msgs
    have h := scenarioAux times msgs 4095 rfl
    exact ⟨enqueueIter_returns_true times msgs, h.1, h.2.1, h.2.2.1,
      h.2.2.2⟩

/-- Witness for C1 at concrete inputs: a queue with `write_index = 4095`
and `read_index = 0` is full and `Enqueue` on it returns `false`; the 4th
enqueue of the scenario returns `true`. -/
theorem C1_full_enqueue_drops_and_scenario_witness :
    IsFull { initQueue with write_index := 4095 } = true ∧
    (Enqueue 7 defaultMsg { initQueue with write_index := 4095 }).2 =
      false ∧
    (Enqueue ((fun _ => 5) 3) ((fun _ => defaultMsg) 3)
      (enqueueIter (fun _ => 5) (fun _ => defaultMsg) 3)).2 = true := by
  refine ⟨by decide, ?_, ?_⟩
  · exact (C1_full_enqueue_drops_and_scenario.1 7 defaultMsg
      { initQueue with write_index := 4095 } (by decide)).1
  · exact (C1_full_enqueue_drops_and_scenario.2 (fun _ => 5)
      (fun _ => defaultMsg)).1 3 (by decide)

/-- Run `Enqueue` over a list of (clock value, message) pairs, collecting
the returned booleans. -/
def enqueueList : List (Nat × MIDIMessage) → MIDIMessageQueue →
    MIDIMessageQueue × List Bool
  | [], q => (q, [])
  | (t, m) :: rest, q =>
    let r := Enqueue t m q
    let s := enqueueList rest r.1
    (s.1, r.2 :: s.2)

/-- Run `Dequeue` up to `n` times, collecting the dequeued messages (the
consumer loop stops early on an empty queue). -/
def dequeueList : Nat → MIDIMessageQueue → MIDIMessageQueue × List MIDIMessage
  | 0, q => (q, [])
  | n + 1, q =>
    let r := Dequeue q
    match r.2 with
    | none => (r.1, [])
    | some m =>
      let s := dequeueList n r.1
      (s.1, m :: s.2)

/-- The caller-visible payload of a message: the fields `Enqueue` never
rewrites. -/
def payload (m : MIDIMessage) : Nat × Nat × Nat × Nat :=
  (m.status, m.data1, m.data2, m.source)

theorem payload_stampMsg (now seq : Nat) (m : MIDIMessage) :
    payload (stampMsg now seq m) = payload m := rfl

/-- Enqueueing a list into a queue with `read_index = 0` and enough free
space: every call returns `true`, the write index advances by the list
length, older slots are untouched and the new slots hold the stamped
messages (payload preserved). -/
theorem enqueueList_spec :
    ∀ (L : List (Nat × MIDIMessage)) (q : MIDIMessageQueue),
      q.read_index = 0 → q.write_index + L.length ≤ 4095 →
      (enqueueList L q).1.read_index = 0 ∧
      (enqueueList L q).1.write_index = q.write_index + L.length ∧
      (enqueueList L q).2 = List.replicate L.length true ∧
      (∀ j, j < q.write_index → (enqueueList L q).1.buffer j = q.buffer j) ∧
      (∀ j (hj : j < L.length),
        payload ((enqueueList L q).1.buffer (q.write_index + j)) =
          payload (L.get ⟨j, hj⟩).2) := by
  intro L
  induction L with
  | nil =>
    intro q hr _
    exact ⟨hr, rfl, rfl, fun j _ => rfl, fun j hj => absurd hj (by simp)⟩
  | cons p rest ih =>
    intro q hr hlen
    obtain ⟨t, m⟩ := p
    have hnotfull : GetNextIndex q.write_index ≠ q.read_index := by
      rw [GetNextIndex, MIDI_QUEUE_SIZE, hr]
      have : q.write_index + 1 < 4096 := by
        simp only [List.length_cons] at hlen; omega
      rw [Nat.mod_eq_of_lt this]
      omega
    have hstep := Enqueue_of_notFull t m q hnotfull
    have hwi : (Enqueue t m q).1.write_index = q.write_index + 1 := by
      rw [hstep, GetNextIndex, MIDI_QUEUE_SIZE]
      have : q.write_index + 1 < 4096 := by
        simp only [List.length_cons] at hlen; omega
      exact Nat.mod_eq_of_lt this
    have hri : (Enqueue t m q).1.read_index = 0 := by rw [hstep]; exact hr
    have hbuf : (Enqueue t m q).1.buffer =
        setSlot q.buffer q.write_index (stampMsg t q.sequence_counter m) := by
      rw [hstep]
    have ihq := ih (Enqueue t m q).1 hri
      (by rw [hwi]; simp only [List.length_cons] at hlen; omega)
    have hunf : enqueueList ((t, m) :: rest) q =
        ((enqueueList rest (Enqueue t m q).1).1,
         (Enqueue t m q).2 :: (enqueueList rest (Enqueue t m q).1).2) := by
      rw [enqueueList]
    refine ⟨?_, ?_, ?_, ?_, ?_⟩
    · rw [hunf]; exact ihq.1
    · rw [hunf]
      rw [ihq.2.1, hwi, List.length_cons]
      omega
    · rw [hunf, List.length_cons]
      have hok : (Enqueue t m q).2 = true := by rw [hstep]
      rw [hok, ihq.2.2.1, List.replicate_succ]
    · intro j hj
      rw [hunf]
      have h1 := ihq.2.2.2.1 j (by omega)
      rw [h1, hbuf, setSlot]
      have : ¬ j = q.write_index := by omega
      simp only [this, if_false]
    · intro j hj
      rw [hunf]
      match j with
      | 0 =>
        have h1 := ihq.2.2.2.1 q.write_index (by omega)
        rw [Nat.add_zero, h1, hbuf, setSlot]
        simp [payload_stampMsg]
      | j' + 1 =>
        have hj' : j' < rest.length := by
          simp only [List.length_cons] at hj; omega
        have h1 := ihq.2.2.2.2 j' hj'
        rw [hwi] at h1
        have harith : q.write_index + (j' + 1) = q.write_index + 1 + j' := by
          omega
        rw [harith, h1]
        rfl

/-- Dequeueing `n` messages from a queue holding at least `n` of them
(no wraparound): the read index advances by `n`, the write index is
unchanged, and the dequeued list is exactly the `n` buffered slots in
order. -/
theorem dequeueList_spec :
    ∀ (n : Nat) (q : MIDIMessageQueue),
      q.read_index + n ≤ q.write_index → q.write_index ≤ 4095 →
      (dequeueList n q).1.read_index = q.read_index + n ∧
      (dequeueList n q).1.write_index = q.write_index ∧
      (dequeueList n q).2 =
        (List.range n).map (fun i => q.buffer (q.read_index + i)) := by
  intro n
  induction n with
  | zero => intro q _ _; exact ⟨rfl, rfl, rfl⟩
  | succ n ih =>
    intro q hn hw
    have hne : q.read_index ≠ q.write_index := by omega
    have hstep := Dequeue_of_notEmpty q hne
    have hread : GetNextIndex q.read_index = q.read_index + 1 := by
      rw [GetNextIndex, MIDI_QUEUE_SIZE, Nat.mod_eq_of_lt (by omega)]
    have hri : (Dequeue q).1.read_index = q.read_index + 1 := by
      rw [hstep]; exact hread
    have hwi : (Dequeue q).1.write_index = q.write_index := by rw [hstep]
    have hbuf : (Dequeue q).1.buffer = q.buffer := by rw [hstep]
    have hmsg : (Dequeue q).2 = some (q.buffer q.read_index) := by rw [hstep]
    have ihq := ih (Dequeue q).1 (by rw [hri, hwi]; omega) (by rw [hwi]; omega)
    have hunf : dequeueList (n + 1) q =
        ((dequeueList n (Dequeue q).1).1,
         q.buffer q.read_index :: (dequeueList n (Dequeue q).1).2) := by
      rw [dequeueList, hmsg]
    refine ⟨?_, ?_, ?_⟩
    · rw [hunf]
      rw [ihq.1, hri]
      omega
    · rw [hunf]
      rw [ihq.2.1, hwi]
    · rw [hunf]
      show q.buffer q.read_index :: (dequeueList n (Dequeue q).1).2 =
        List.map (fun i => q.buffer (q.read_index + i)) (List.range (n + 1))
      rw [ihq.2.2, hri, hbuf, List.range_succ_eq_map, List.map_cons,
        List.map_map, Nat.add_zero]
      have hfun : (fun i => q.buffer (q.read_index + 1 + i)) =
          ((fun i => q.buffer (q.read_index + i)) ∘ Nat.succ) := by
        funext i
        simp only [Function.comp_apply]
        congr 1
        omega
      rw [hfun, Nat.add_zero]

/-- Claim C2: for every sequence of `N ≤ 4095` events enqueued into an
initially empty queue, all enqueues return `true`, `N` dequeues succeed
and yield exactly those events in enqueue order with payload fields
(status, data1, data2, source) unchanged, and afterwards the queue is
empty with depth 0. -/
theorem C2_fifo_order_preserved (L : List (Nat × MIDIMessage))
    (hlen : L.length ≤ 4095) :
    (enqueueList L initQueue).2 = List.replicate L.length true ∧
    (dequeueList L.length (enqueueList L initQueue).1).2.length =
      L.length ∧
    (dequeueList L.length (enqueueList L initQueue).1).2.map payload =
      L.map (fun p => payload p.2) ∧
    IsEmpty (dequeueList L.length (enqueueList L initQueue).1).1 = true ∧
    GetQueueDepth (dequeueList L.length (enqueueList L initQueue).1).1
      = 0 := by
  have hiw : initQueue.write_index = 0 := rfl
  have he := enqueueList_spec L initQueue rfl (by rw [hiw]; omega)
  have hw0 : (enqueueList L initQueue).1.write_index = L.length := by
    rw [he.2.1, hiw]
    omega
  have hd := dequeueList_spec L.length (enqueueList L initQueue).1
    (by rw [he.1, hw0]; omega) (by rw [hw0]; omega)
  refine ⟨he.2.2.1, ?_, ?_, ?_, ?_⟩
  · rw [hd.2.2]
    simp
  · rw [hd.2.2]
    refine List.ext_get (by simp) ?_
    intro i h1 h2
    have hi : i < L.length := by simpa using h2
    simp only [List.get_map, List.get_range]
    rw [he.1, Nat.zero_add]
    have hp := he.2.2.2.2 i hi
    rw [hiw, Nat.zero_add] at hp
    exact hp
  · rw [IsEmpty, hd.1, hd.2.1, he.1, hw0]
    simp only [decide_eq_true_eq]
    omega
  · rw [GetQueueDepth, hd.1, hd.2.1, he.1, hw0]
    have hle : (0 : Nat) + L.length ≤ L.length := by omega
    rw [if_pos hle]
    omega

/-- Witness for C2 at a concrete two-element sequence. -/
theorem C2_fifo_order_preserved_witness :
    ([((5 : Nat), { defaultMsg with status := 144, data1 := 60 }),
      ((6 : Nat), { defaultMsg with status := 128, data1 := 61 })].length
       ≤ 4095) ∧
    (dequeueList
        [((5 : Nat), { defaultMsg with status := 144, data1 := 60 }),
         ((6 : Nat), { defaultMsg with status := 128, data1 := 61 })].length
        (enqueueList
          [((5 : Nat), { defaultMsg with status := 144, data1 := 60 }),
           ((6 : Nat), { defaultMsg with status := 128, data1 := 61 })]
          initQueue).1).2.map payload =
      [((5 : Nat), { defaultMsg with status := 144, data1 := 60 }),
       ((6 : Nat), { defaultMsg with status := 128, data1 := 61 })].map
        (fun p => payload p.2) := by
  refine ⟨by decide, ?_⟩
  exact (C2_fifo_order_preserved _ (by decide)).2.2.1

theorem setSlot_same (f : Nat → MIDIMessage) (i : Nat) (v : MIDIMessage) :
    setSlot f i v i = v := by
  simp [setSlot]

theorem stampMsg_sequence (now seq : Nat) (m : MIDIMessage) :
    (stampMsg now seq m).sequence = seq := rfl

/-- A successful `Enqueue` stores the stamped message at the old write
position. -/
theorem Enqueue_stored (now : Nat) (m : MIDIMessage) (q : MIDIMessageQueue)
    (h : GetNextIndex q.write_index ≠ q.read_index) :
    (Enqueue now m q).1.buffer q.write_index =
      stampMsg now q.sequence_counter m := by
  rw [Enqueue_of_notFull now m q h]
  show setSlot q.buffer q.write_index (stampMsg now q.sequence_counter m)
    q.write_index = _
  rw [setSlot_same]

/-- The per-call outcomes of a sequence of enqueues: on success, the
stamped message exactly as `Enqueue` stores it in the buffer; `none` when
the message was dropped. -/
def enqueueTrace : List (Nat × MIDIMessage) → MIDIMessageQueue →
    List (Option MIDIMessage)
  | [], _ => []
  | (t, m) :: rest, q =>
    let r := Enqueue t m q
    (if r.2 then some (stampMsg t q.sequence_counter m) else none)
      :: enqueueTrace rest r.1

theorem enqueueTrace_length :
    ∀ (L : List (Nat × MIDIMessage)) (q : MIDIMessageQueue),
      (enqueueTrace L q).length = L.length := by
  intro L
  induction L with
  | nil => intro q; rfl
  | cons p rest ih =>
    intro q
    obtain ⟨t, m⟩ := p
    rw [enqueueTrace]
    simp [ih]

theorem enqueueTrace_getD_lt (L : List (Nat × MIDIMessage))
    (q : MIDIMessageQueue) (i : Nat) (mi : MIDIMessage)
    (h : (enqueueTrace L q).getD i none = some mi) : i < L.length := by
  by_contra hge
  rw [List.getD_eq_default] at h
  · exact Option.noConfusion h
  · rw [enqueueTrace_length]; omega

/-- Every successful enqueue in a run stamps a sequence number at least
the starting value of the counter (no wraparound within the run). -/
theorem enqueueTrace_seq_lb :
    ∀ (L : List (Nat × MIDIMessage)) (q : MIDIMessageQueue),
      q.sequence_counter + L.length < UINT32_MOD →
      ∀ i mi, (enqueueTrace L q).getD i none = some mi →
        q.sequence_counter ≤ mi.sequence := by
  intro L
  induction L with
  | nil =>
    intro q _ i mi h
    simp [enqueueTrace] at h
  | cons p rest ih =>
    intro q hbound i mi h
    obtain ⟨t, m⟩ := p
    have hunf : enqueueTrace ((t, m) :: rest) q =
        (if (Enqueue t m q).2 then some (stampMsg t q.sequence_counter m)
         else none) :: enqueueTrace rest (Enqueue t m q).1 := by
      rw [enqueueTrace]
    rw [hunf] at h
    simp only [List.length_cons] at hbound
    by_cases hful : GetNextIndex q.write_index = q.read_index
    · have hstep := Enqueue_of_full t m q hful
      have hok : (Enqueue t m q).2 = false := by rw [hstep]
      have hseq : (Enqueue t m q).1.sequence_counter = q.sequence_counter :=
        by rw [hstep]
      match i with
      | 0 =>
        rw [List.getD_cons_zero, hok] at h
        simp at h
      | i' + 1 =>
        rw [List.getD_cons_succ] at h
        have := ih (Enqueue t m q).1 (by rw [hseq]; omega) i' mi h
        rw [hseq] at this
        exact this
    · have hstep := Enqueue_of_notFull t m q hful
      have hok : (Enqueue t m q).2 = true := by rw [hstep]
      have hseq : (Enqueue t m q).1.sequence_counter =
          q.sequence_counter + 1 := by
        rw [hstep]
        show (q.sequence_counter + 1) % UINT32_MOD = q.sequence_counter + 1
        exact Nat.mod_eq_of_lt (by omega)
      match i with
      | 0 =>
        rw [List.getD_cons_zero, hok] at h
        simp only [if_true] at h
        have hmi : mi = stampMsg t q.sequence_counter m :=
          (Option.some.injEq _ _ ▸ h).symm
        rw [hmi, stampMsg_sequence]
      | i' + 1 =>
        rw [List.getD_cons_succ] at h
        have := ih (Enqueue t m q).1 (by rw [hseq]; omega) i' mi h
        rw [hseq] at this
        omega

/-- Sequence numbers of successful enqueues in a run are strictly
increasing in run order, as long as the counter does not wrap. -/
theorem enqueueTrace_seq_strict_mono :
    ∀ (L : List (Nat × MIDIMessage)) (q : MIDIMessageQueue),
      q.sequence_counter + L.length < UINT32_MOD →
      ∀ i j mi mj, i < j →
        (enqueueTrace L q).getD i none = some mi →
        (enqueueTrace L q).getD j none = some mj →
        mi.sequence < mj.sequence := by
  intro L
  induction L with
  | nil =>
    intro q _ i j mi mj _ hi _
    simp [enqueueTrace] at hi
  | cons p rest ih =>
    intro q hbound i j mi mj hij hi hj
    obtain ⟨t, m⟩ := p
    have hunf : enqueueTrace ((t, m) :: rest) q =
        (if (Enqueue t m q).2 then some (stampMsg t q.sequence_counter m)
         else none) :: enqueueTrace rest (Enqueue t m q).1 := by
      rw [enqueueTrace]
    rw [hunf] at hi hj
    simp only [List.length_cons] at hbound
    by_cases hful : GetNextIndex q.write_index = q.read_index
    · have hstep := Enqueue_of_full t m q hful
      have hok : (Enqueue t m q).2 = false := by rw [hstep]
      have hseq : (Enqueue t m q).1.sequence_counter = q.sequence_counter :=
        by rw [hstep]
      match i, j with
      | 0, _ =>
        rw [List.getD_cons_zero, hok] at hi
        simp at hi
      | i' + 1, j' + 1 =>
        rw [List.getD_cons_succ] at hi hj
        exact ih (Enqueue t m q).1 (by rw [hseq]; omega) i' j' mi mj
          (by omega) hi hj
    · have hstep := Enqueue_of_notFull t m q hful
      have hok : (Enqueue t m q).2 = true := by rw [hstep]
      have hseq : (Enqueue t m q).1.sequence_counter =
          q.sequence_counter + 1 := by
        rw [hstep]
        show (q.sequence_counter + 1) % UINT32_MOD = q.sequence_counter + 1
        exact Nat.mod_eq_of_lt (by omega)
      match i, j with
      | 0, j' + 1 =>
        rw [List.getD_cons_zero, hok] at hi
        simp only [if_true] at hi
        have hmi : mi = stampMsg t q.sequence_counter m :=
          (Option.some.injEq _ _ ▸ hi).symm
        rw [List.getD_cons_succ] at hj
        have hlb := enqueueTrace_seq_lb rest (Enqueue t m q).1
          (by rw [hseq]; omega) j' mj hj
        rw [hseq] at hlb
        rw [hmi, stampMsg_sequence]
        omega
      | i' + 1, j' + 1 =>
        rw [List.getD_cons_succ] at hi hj
        exact ih (Enqueue t m q).1 (by rw [hseq]; omega) i' j' mi mj
          (by omega) hi hj

/-- The timestamp stored for the `i`-th enqueued event: the caller's
timestamp when nonzero, otherwise the clock value at the enqueue. -/
theorem enqueueTrace_timestamp :
    ∀ (L : List (Nat × MIDIMessage)) (q : MIDIMessageQueue) (i : Nat)
      (mi : MIDIMessage),
      (enqueueTrace L q).getD i none = some mi →
      mi.timestamp =
        if (L.getD i (0, defaultMsg)).2.timestamp = 0
        then (L.getD i (0, defaultMsg)).1
        else (L.getD i (0, defaultMsg)).2.timestamp := by
  intro L
  induction L with
  | nil =>
    intro q i mi h
    simp [enqueueTrace] at h
  | cons p rest ih =>
    intro q i mi h
    obtain ⟨t, m⟩ := p
    have hunf : enqueueTrace ((t, m) :: rest) q =
        (if (Enqueue t m q).2 then some (stampMsg t q.sequence_counter m)
         else none) :: enqueueTrace rest (Enqueue t m q).1 := by
      rw [enqueueTrace]
    rw [hunf] at h
    match i with
    | 0 =>
      rw [List.getD_cons_zero] at h
      rw [List.getD_cons_zero]
      by_cases hok : (Enqueue t m q).2 = true
      · rw [hok] at h
        simp only [if_true] at h
        have hmi : mi = stampMsg t q.sequence_counter m :=
          (Option.some.injEq _ _ ▸ h).symm
        rw [hmi]
        rfl
      · rw [Bool.not_eq_true] at hok
        rw [hok] at h
        simp at h
    | i' + 1 =>
      rw [List.getD_cons_succ] at h
      rw [List.getD_cons_succ]
      exact ih (Enqueue t m q).1 i' mi h

/-- A producer/consumer cycle: one successful `Enqueue` (clock 1, default
message) immediately followed by one `Dequeue`.  After `n` cycles the
queue is empty again and the `uint32_t` sequence counter holds
`n % 2 ^ 32`. -/
def enqDeqCycle : Nat → MIDIMessageQueue
  | 0 => initQueue
  | n + 1 => (Dequeue (Enqueue 1 defaultMsg (enqDeqCycle n)).1).1

theorem enqDeqCycle_spec :
    ∀ n, (enqDeqCycle n).write_index = n % MIDI_QUEUE_SIZE ∧
         (enqDeqCycle n).read_index = n % MIDI_QUEUE_SIZE ∧
         (enqDeqCycle n).sequence_counter = n % UINT32_MOD := by
  intro n
  induction n with
  | zero => exact ⟨rfl, rfl, rfl⟩
  | succ n ih =>
    obtain ⟨hw, hr, hs⟩ := ih
    have hQS : MIDI_QUEUE_SIZE = 4096 := rfl
    have hnotfull : GetNextIndex (enqDeqCycle n).write_index ≠
        (enqDeqCycle n).read_index := by
      rw [hw, hr, GetNextIndex, hQS]
      omega
    have hstep1 := Enqueue_of_notFull 1 defaultMsg (enqDeqCycle n) hnotfull
    have hw1 : (Enqueue 1 defaultMsg (enqDeqCycle n)).1.write_index =
        GetNextIndex (enqDeqCycle n).write_index := by rw [hstep1]
    have hr1 : (Enqueue 1 defaultMsg (enqDeqCycle n)).1.read_index =
        (enqDeqCycle n).read_index := by rw [hstep1]
    have hs1 : (Enqueue 1 defaultMsg (enqDeqCycle n)).1.sequence_counter =
        ((enqDeqCycle n).sequence_counter + 1) % UINT32_MOD := by rw [hstep1]
    have hne : (Enqueue 1 defaultMsg (enqDeqCycle n)).1.read_index ≠
        (Enqueue 1 defaultMsg (enqDeqCycle n)).1.write_index := by
      rw [hw1, hr1, hw, hr, GetNextIndex, hQS]
      omega
    have hstep2 := Dequeue_of_notEmpty _ hne
    have hunf : enqDeqCycle (n + 1) =
        (Dequeue (Enqueue 1 defaultMsg (enqDeqCycle n)).1).1 := by
      rw [enqDeqCycle]
    refine ⟨?_, ?_, ?_⟩
    · rw [hunf, hstep2]
      show (Enqueue 1 defaultMsg (enqDeqCycle n)).1.write_index = _
      rw [hw1, hw, GetNextIndex, hQS]
      omega
    · rw [hunf, hstep2]
      show GetNextIndex
        (Enqueue 1 defaultMsg (enqDeqCycle n)).1.read_index = _
      rw [hr1, hr, GetNextIndex, hQS]
      omega
    · rw [hunf, hstep2]
      show (Enqueue 1 defaultMsg (enqDeqCycle n)).1.sequence_counter = _
      rw [hs1, hs]
      have hUM : UINT32_MOD = 4294967296 := rfl
      rw [hUM]
      omega

/-- Claim C7 counterexample.  Two same-origin events submitted with
explicit nonzero timestamps 100 and then 50 are stored with those
timestamps unchanged, so the per-origin timestamp order decreases; and
after `2 ^ 32` successful enqueue/dequeue cycles the 32-bit sequence
counter has wrapped: the next successful enqueue stores sequence number
0, which is not greater than the sequence number 1 stored by the second
enqueue of the very same run. -/
theorem C7_counterexample_wrap_and_explicit_timestamps :
    (enqueueTrace [(5, { defaultMsg with timestamp := 100 }),
                   (6, { defaultMsg with timestamp := 50 })] initQueue =
      [some { defaultMsg with timestamp := 100, sequence := 0 },
       some { defaultMsg with timestamp := 50, sequence := 1 }]) ∧
    ({ defaultMsg with timestamp := 100, sequence := 0 }).source =
      ({ defaultMsg with timestamp := 50, sequence := 1 }).source ∧
    (50 : Nat) < 100 ∧
    (Enqueue 1 defaultMsg (enqDeqCycle (2 ^ 32))).2 = true ∧
    ((Enqueue 1 defaultMsg (enqDeqCycle (2 ^ 32))).1.buffer
      (enqDeqCycle (2 ^ 32)).write_index).sequence = 0 ∧
    ((Enqueue 1 defaultMsg (enqDeqCycle 1)).1.buffer
      (enqDeqCycle 1).write_index).sequence = 1 := by
  have hQS : MIDI_QUEUE_SIZE = 4096 := rfl
  have hUM : UINT32_MOD = 4294967296 := rfl
  obtain ⟨hw, hr, hs⟩ := enqDeqCycle_spec (2 ^ 32)
  have hnotfull : GetNextIndex (enqDeqCycle (2 ^ 32)).write_index ≠
      (enqDeqCycle (2 ^ 32)).read_index := by
    rw [hw, hr, GetNextIndex, hQS]
    omega
  have hstep := Enqueue_of_notFull 1 defaultMsg (enqDeqCycle (2 ^ 32))
    hnotfull
  obtain ⟨hw1, hr1, hs1⟩ := enqDeqCycle_spec 1
  have hnotfull1 : GetNextIndex (enqDeqCycle 1).write_index ≠
      (enqDeqCycle 1).read_index := by
    rw [hw1, hr1, GetNextIndex, hQS]
    omega
  have hstep1 := Enqueue_of_notFull 1 defaultMsg (enqDeqCycle 1) hnotfull1
  refine ⟨by decide, by decide, by decide, by rw [hstep], ?_, ?_⟩
  · rw [Enqueue_stored 1 defaultMsg (enqDeqCycle (2 ^ 32)) hnotfull,
      stampMsg_sequence, hs, hUM]
    omega
  · rw [Enqueue_stored 1 defaultMsg (enqDeqCycle 1) hnotfull1,
      stampMsg_sequence, hs1, hUM]

/-- Claim C7 (amended): within any single run whose length keeps the
32-bit sequence counter from wrapping, successful enqueues stamp strictly
increasing sequence numbers; the capture timestamp is set from the clock
only when the incoming timestamp is unset (0), a nonzero caller-provided
timestamp being stored unchanged; and per origin the stored timestamps
are non-decreasing provided the producers submit unset timestamps under a
monotone clock. -/
theorem C7_sequence_strictly_increasing_timestamp_rule :
    (∀ (L : List (Nat × MIDIMessage)),
       L.length < UINT32_MOD →
       ∀ i j mi mj, i < j →
         (enqueueTrace L initQueue).getD i none = some mi →
         (enqueueTrace L initQueue).getD j none = some mj →
         mi.sequence < mj.sequence) ∧
    (∀ (L : List (Nat × MIDIMessage)) (q : MIDIMessageQueue) (i : Nat)
       (mi : MIDIMessage),
       (enqueueTrace L q).getD i none = some mi →
       mi.timestamp =
         if (L.getD i (0, defaultMsg)).2.timestamp = 0
         then (L.getD i (0, defaultMsg)).1
         else (L.getD i (0, defaultMsg)).2.timestamp) ∧
    (∀ (L : List (Nat × MIDIMessage)),
       (∀ p ∈ L, p.2.timestamp = 0) →
       (∀ i j, i < j → j < L.length →
          (L.getD i (0, defaultMsg)).1 ≤ (L.getD j (0, defaultMsg)).1) →
       ∀ i j mi mj, i < j →
         (enqueueTrace L initQueue).getD i none = some mi →
         (enqueueTrace L initQueue).getD j none = some mj →
         mi.source = mj.source → mi.timestamp ≤ mj.timestamp) := by
  refine ⟨?_, enqueueTrace_timestamp, ?_⟩
  · intro L hlen i j mi mj hij hi hj
    have h0 : initQueue.sequence_counter = 0 := rfl
    exact enqueueTrace_seq_strict_mono L initQueue (by rw [h0]; omega)
      i j mi mj hij hi hj
  · intro L hz hmono i j mi mj hij hi hj _
    have hilt := enqueueTrace_getD_lt L initQueue i mi hi
    have hjlt := enqueueTrace_getD_lt L initQueue j mj hj
    have hzi : (L.getD i (0, defaultMsg)).2.timestamp = 0 := by
      apply hz
      rw [List.getD_eq_getElem?_getD, List.getElem?_eq_getElem hilt]
      exact List.getElem_mem hilt
    have hzj : (L.getD j (0, defaultMsg)).2.timestamp = 0 := by
      apply hz
      rw [List.getD_eq_getElem?_getD, List.getElem?_eq_getElem hjlt]
      exact List.getElem_mem hjlt
    have hti := enqueueTrace_timestamp L initQueue i mi hi
    have htj := enqueueTrace_timestamp L initQueue j mj hj
    rw [hzi, if_pos rfl] at hti
    rw [hzj, if_pos rfl] at htj
    rw [hti, htj]
    exact hmono i j hij hjlt

/-- Witness for C7 at a concrete two-event run with unset timestamps. -/
theorem C7_sequence_strictly_increasing_timestamp_rule_witness :
    (([(5, defaultMsg), (6, defaultMsg)] :
        List (Nat × MIDIMessage)).length < UINT32_MOD) ∧
    ((0 : Nat) < 1) ∧
    ((enqueueTrace [(5, defaultMsg), (6, defaultMsg)] initQueue).getD 0
        none = some { defaultMsg with timestamp := 5, sequence := 0 }) ∧
    ((enqueueTrace [(5, defaultMsg), (6, defaultMsg)] initQueue).getD 1
        none = some { defaultMsg with timestamp := 6, sequence := 1 }) ∧
    ({ defaultMsg with timestamp := 5, sequence := 0 }).sequence <
      ({ defaultMsg with timestamp := 6, sequence := 1 }).sequence := by
  refine ⟨by decide, by decide, by decide, by decide, ?_⟩
  exact C7_sequence_strictly_increasing_timestamp_rule.1
    [(5, defaultMsg), (6, defaultMsg)] (by decide) 0 1 _ _ (by decide)
    (by decide) (by decide)

/-!
Interleaving semantics for `MIDIMessageQueue::Enqueue`
(midi_message_queue.cpp, lines 29-74).  The enqueue path is decomposed at
its shared-memory operations, in source order: the acquire-load of
`write_index`, the relaxed load of `read_index` with the full check, the
`fetch_add` on `sequence_counter`, the plain store into
`buffer[current_write]`, the release-store of `write_index`, and the
statistics update.  There is no compare-and-swap or fetch-and-increment
of `write_index` anywhere on this path: the slot index a producer writes
to is the value it loaded at the first step. -/

/-- Local state of one producer thread executing `Enqueue`. -/
structure ProducerState where
  msg : MIDIMessage
  time : Nat
  pc : Nat
  savedWrite : Nat
  savedSeq : Nat
  result : Option Bool
deriving DecidableEq, Repr

/-- One shared-memory micro-operation of `Enqueue` by one producer. -/
def microStep (q : MIDIMessageQueue) (p : ProducerState) :
    MIDIMessageQueue × ProducerState :=
  match p.pc with
  | 0 => (q, { p with savedWrite := q.write_index, pc := 1 })
  | 1 =>
    if GetNextIndex p.savedWrite = q.read_index then
      ({ q with messages_dropped := q.messages_dropped + 1,
                overflow_events := q.overflow_events + 1 },
       { p with result := some false, pc := 6 })
    else (q, { p with pc := 2 })
  | 2 =>
    ({ q with sequence_counter := (q.sequence_counter + 1) % UINT32_MOD },
     { p with savedSeq := q.sequence_counter, pc := 3 })
  | 3 =>
    ({ q with
        buffer :=
          setSlot q.buffer p.savedWrite
            (stampMsg p.time p.savedSeq p.msg) },
     { p with pc := 4 })
  | 4 => ({ q with write_index := GetNextIndex p.savedWrite },
          { p with pc := 5 })
  | 5 => ({ q with messages_enqueued := q.messages_enqueued + 1 },
          { p with result := some true, pc := 6 })
  | _ => (q, p)

/-- Two producer threads sharing one queue. -/
structure TwoProducers where
  q : MIDIMessageQueue
  p0 : ProducerState
  p1 : ProducerState

/-- Run one micro-operation of the scheduled producer
(`false` = producer 0, `true` = producer 1). -/
def schedStep (s : TwoProducers) : Bool → TwoProducers
  | false => let r := microStep s.q s.p0
             { s with q := r.1, p0 := r.2 }
  | true => let r := microStep s.q s.p1
            { s with q := r.1, p1 := r.2 }

/-- Run a whole schedule of interleaved micro-operations. -/
def runSched : List Bool → TwoProducers → TwoProducers
  | [], s => s
  | b :: rest, s => runSched rest (schedStep s b)

/-- A fresh producer about to call `Enqueue now msg`. -/
def mkProducer (now : Nat) (m : MIDIMessage) : ProducerState :=
  { msg := m, time := now, pc := 0, savedWrite := 0, savedSeq := 0,
    result := none }

/-- The message producer 0 races to enqueue. -/
def c9msg0 : MIDIMessage := { defaultMsg with status := 144, data1 := 1 }

/-- The message producer 1 races to enqueue. -/
def c9msg1 : MIDIMessage := { defaultMsg with status := 144, data1 := 2 }

/-- Both producers start `Enqueue` on an empty queue. -/
def c9init : TwoProducers :=
  { q := initQueue, p0 := mkProducer 1 c9msg0, p1 := mkProducer 2 c9msg1 }

/-- The racing interleaving: both producers load `write_index` first,
then each runs to completion. -/
def raceSchedule : List Bool :=
  [false, true, false, false, false, false, false,
   true, true, true, true, true]

/-- Claim C9: under two producers calling `Enqueue` concurrently there is
an interleaving in which both load the same write index, both report
success, and both write the same buffer slot, so one message is silently
lost: afterwards the queue holds one element whose payload is producer
1's message, producer 0's message is nowhere, yet the enqueued counter
says 2.  The embedded enqueue path performs only a plain load of
`write_index` followed later by a plain store, never an atomic claim of
the slot. -/
theorem C9_two_producers_lose_a_message :
    (runSched raceSchedule c9init).p0.savedWrite =
      (runSched raceSchedule c9init).p1.savedWrite ∧
    (runSched raceSchedule c9init).p0.result = some true ∧
    (runSched raceSchedule c9init).p1.result = some true ∧
    (runSched raceSchedule c9init).q.messages_enqueued = 2 ∧
    GetQueueDepth (runSched raceSchedule c9init).q = 1 ∧
    payload ((runSched raceSchedule c9init).q.buffer 0) = payload c9msg1 ∧
    payload ((runSched raceSchedule c9init).q.buffer 0) ≠ payload c9msg0 := by
  refine ⟨by decide, by decide, by decide, by decide, by decide,
    by decide, by decide⟩

/-!
Embedding of `MIDIEventHandler` (midi_event_handler.{h,cpp}).  The
callback `std::function` values are opaque to the claims; a callback is
represented by its registration entry and an execution is recorded as the
entry's id.  The processing-time statistics (`max_processing_time_us`,
`avg_processing_time_us`, `current_queue_depth`) are measurement-only
fields no claim references and are omitted.  `system_time()` is again an
explicit `now_us` argument. -/

/-- `MIDIEventFilter` (midi_event_handler.h, lines 43-54). -/
structure MIDIEventFilter where
  accept_note_on : Bool
  accept_note_off : Bool
  accept_cc : Bool
  accept_sysex : Bool
  accept_from_hardware : Bool
  accept_from_gui : Bool
  min_velocity : Nat
  max_velocity : Nat
deriving DecidableEq, Repr

/-- The default-constructed filter: accept everything. -/
def acceptAllFilter : MIDIEventFilter :=
  { accept_note_on := true, accept_note_off := true, accept_cc := true,
    accept_sysex := true, accept_from_hardware := true,
    accept_from_gui := true, min_velocity := 0, max_velocity := 127 }

/-- `MIDIEventFilter::ShouldAccept` (midi_event_handler.cpp, 10-42):
a switch on `status & 0xF0` (with a velocity range check for note-on)
followed by a switch on the source. -/
def ShouldAccept (f : MIDIEventFilter) (msg : MIDIMessage) : Bool :=
  let status := msg.status &&& 0xF0
  let typeOk :=
    if status = 0x90 then
      f.accept_note_on && decide (f.min_velocity ≤ msg.data2) &&
        decide (msg.data2 ≤ f.max_velocity)
    else if status = 0x80 then f.accept_note_off
    else if status = 0xB0 then f.accept_cc
    else if status = 0xF0 then f.accept_sysex
    else true
  let sourceOk :=
    if msg.source = 0 ∨ msg.source = 1 then f.accept_from_hardware
    else if msg.source = 2 then f.accept_from_gui
    else true
  typeOk && sourceOk

/-- A callback registration entry (midi_event_handler.h, `CallbackEntry`);
the `std::function` itself is opaque and represented by the id. -/
structure CallbackEntry where
  id : Nat
  filter : MIDIEventFilter
  enabled : Bool
deriving DecidableEq, Repr

/-- State of a `MIDIEventHandler`. -/
structure MIDIEventHandler where
  callbacks : List CallbackEntry
  global_filter : MIDIEventFilter
  next_callback_id : Nat
  prevent_feedback : Bool
  last_gui_message_time : Nat
  events_processed : Nat
  events_filtered : Nat
  callbacks_executed : Nat
deriving DecidableEq, Repr

/-- Freshly constructed handler: no callbacks, id counter at 1, feedback
prevention on, permissive global filter. -/
def initHandler : MIDIEventHandler :=
  { callbacks := [], global_filter := acceptAllFilter,
    next_callback_id := 1, prevent_feedback := true,
    last_gui_message_time := 0, events_processed := 0,
    events_filtered := 0, callbacks_executed := 0 }

/-- `MAX_CALLBACKS` (midi_event_handler.h, line 181). -/
def MAX_CALLBACKS : Nat := 32

/-- `FEEDBACK_PREVENTION_WINDOW_MS` (midi_event_handler.h, line 180). -/
def FEEDBACK_PREVENTION_WINDOW_MS : Nat := 50

/-- `MIDIEventHandler::RegisterCallback` (midi_event_handler.cpp,
145-160): returns 0 at the cap, otherwise stamps `next_callback_id`
(a `uint32_t` bumped by `fetch_add(1)`) and appends an enabled entry. -/
def RegisterCallback (h : MIDIEventHandler) (f : MIDIEventFilter) :
    MIDIEventHandler × Nat :=
  if MAX_CALLBACKS ≤ h.callbacks.length then (h, 0)
  else
    let id := h.next_callback_id
    let entry : CallbackEntry := { id := id, filter := f, enabled := true }
    ({ h with
        callbacks := h.callbacks ++ [entry],
        next_callback_id := (id + 1) % UINT32_MOD }, id)

/-- `std::find_if` + `erase`: drop the first entry with the given id. -/
def eraseFirstId : List CallbackEntry → Nat → List CallbackEntry
  | [], _ => []
  | e :: rest, i => if e.id = i then rest else e :: eraseFirstId rest i

/-- `MIDIEventHandler::UnregisterCallback` (midi_event_handler.cpp,
162-170). -/
def UnregisterCallback (h : MIDIEventHandler) (i : Nat) :
    MIDIEventHandler :=
  { h with callbacks := eraseFirstId h.callbacks i }

/-- `std::find_if` + in-place update: toggle the first entry with the
given id. -/
def setEnabledFirst : List CallbackEntry → Nat → Bool → List CallbackEntry
  | [], _, _ => []
  | e :: rest, i, b =>
    if e.id = i then { e with enabled := b } :: rest
    else e :: setEnabledFirst rest i b

/-- `MIDIEventHandler::SetCallbackEnabled` (midi_event_handler.cpp,
172-180). -/
def SetCallbackEnabled (h : MIDIEventHandler) (i : Nat) (b : Bool) :
    MIDIEventHandler :=
  { h with callbacks := setEnabledFirst h.callbacks i b }

/-- The ids invoked by `ExecuteCallbacks` (midi_event_handler.cpp,
223-236): every enabled entry whose filter accepts, in registration
order. -/
def invokedCallbacks (entries : List CallbackEntry) (msg : MIDIMessage) :
    List Nat :=
  (entries.filter (fun e => e.enabled && ShouldAccept e.filter msg)).map
    (fun e => e.id)

/-- `MIDIEventHandler::ExecuteCallbacks`: invoke the matching callbacks
(exceptions are swallowed per entry) and count the invocations. -/
def ExecuteCallbacks (h : MIDIEventHandler) (msg : MIDIMessage) :
    MIDIEventHandler × List Nat :=
  let inv := invokedCallbacks h.callbacks msg
  ({ h with callbacks_executed := h.callbacks_executed + inv.length }, inv)

/-- `MIDIEventHandler::ShouldProcessMessage` (midi_event_handler.cpp,
238-256): global filter first; then, when feedback prevention is on and
the event is GUI-origin, suppress if the `uint32_t` millisecond
difference from the last dispatched GUI event is below the 50 ms
window. -/
def ShouldProcessMessage (h : MIDIEventHandler) (now_us : Nat)
    (msg : MIDIMessage) : Bool :=
  if ShouldAccept h.global_filter msg = false then false
  else if h.prevent_feedback = true ∧ msg.source = 2 then
    if (now_us / 1000 % UINT32_MOD + UINT32_MOD -
        h.last_gui_message_time) % UINT32_MOD <
        FEEDBACK_PREVENTION_WINDOW_MS
    then false
    else true
  else true

/-- `MIDIEventHandler::UpdateMetrics` (midi_event_handler.cpp, 258-279):
the claims only touch its last step — recording the GUI timestamp (in
`uint32_t` milliseconds) used by feedback prevention; the processing-time
statistics are omitted. -/
def UpdateMetrics (h : MIDIEventHandler) (now_us : Nat)
    (msg : MIDIMessage) : MIDIEventHandler :=
  if msg.source = 2 then
    { h with last_gui_message_time := now_us / 1000 % UINT32_MOD }
  else h

/-- `MIDIEventHandler::ProcessMessage` (midi_event_handler.cpp, 203-221):
filtered events only bump `events_filtered`; dispatched events run the
callbacks, update the metrics (including the GUI window timestamp) and
bump `events_processed`.  Returns the ids invoked. -/
def ProcessMessage (h : MIDIEventHandler) (now_us : Nat)
    (msg : MIDIMessage) : MIDIEventHandler × List Nat :=
  if ShouldProcessMessage h now_us msg = false then
    ({ h with events_filtered := h.events_filtered + 1 }, [])
  else
    let r := ExecuteCallbacks h msg
    let h2 := UpdateMetrics r.1 now_us msg
    ({ h2 with events_processed := h2.events_processed + 1 }, r.2)

/-- Scenario handler: feedback prevention on, one registered
accept-everything callback with id 1, window timestamp 0. -/
def c3handler : MIDIEventHandler :=
  { initHandler with
      callbacks := [{ id := 1, filter := acceptAllFilter, enabled := true }],
      next_callback_id := 2 }

/-- Scenario handler state whose feedback window was opened at 1000 ms. -/
def c3handlerAt1000 : MIDIEventHandler :=
  { c3handler with last_gui_message_time := 1000 }

/-- A GUI-origin note-on event. -/
def c3guiMsg : MIDIMessage :=
  { defaultMsg with status := 0x90, data1 := 5, data2 := 64, source := 2 }

/-- The same note-on arriving from hardware. -/
def c3hwMsg : MIDIMessage :=
  { defaultMsg with status := 0x90, data1 := 5, data2 := 64, source := 0 }

theorem ShouldProcessMessage_suppressed (h : MIDIEventHandler)
    (now_us : Nat) (msg : MIDIMessage)
    (hp : h.prevent_feedback = true) (hs : msg.source = 2)
    (hle : h.last_gui_message_time ≤ now_us / 1000 % UINT32_MOD)
    (hlt : now_us / 1000 % UINT32_MOD - h.last_gui_message_time < 50) :
    ShouldProcessMessage h now_us msg = false := by
  rw [ShouldProcessMessage]
  have hUM : UINT32_MOD = 4294967296 := rfl
  have hwin : FEEDBACK_PREVENTION_WINDOW_MS = 50 := rfl
  have hmod : (now_us / 1000 % UINT32_MOD + UINT32_MOD -
      h.last_gui_message_time) % UINT32_MOD =
      now_us / 1000 % UINT32_MOD - h.last_gui_message_time := by
    rw [hUM] at hle ⊢
    have h1 : now_us / 1000 % 4294967296 < 4294967296 := by omega
    omega
  rw [hmod, hwin]
  by_cases hacc : ShouldAccept h.global_filter msg = false
  · rw [if_pos hacc]
  · rw [if_neg hacc, if_pos ⟨hp, hs⟩, if_pos hlt]

theorem ShouldProcessMessage_window_elapsed (h : MIDIEventHandler)
    (now_us : Nat) (msg : MIDIMessage)
    (ha : ShouldAccept h.global_filter msg = true)
    (hle : h.last_gui_message_time ≤ now_us / 1000 % UINT32_MOD)
    (hge : 50 ≤ now_us / 1000 % UINT32_MOD - h.last_gui_message_time) :
    ShouldProcessMessage h now_us msg = true := by
  rw [ShouldProcessMessage]
  have hUM : UINT32_MOD = 4294967296 := rfl
  have hwin : FEEDBACK_PREVENTION_WINDOW_MS = 50 := rfl
  have hmod : (now_us / 1000 % UINT32_MOD + UINT32_MOD -
      h.last_gui_message_time) % UINT32_MOD =
      now_us / 1000 % UINT32_MOD - h.last_gui_message_time := by
    rw [hUM] at hle ⊢
    have h1 : now_us / 1000 % 4294967296 < 4294967296 := by omega
    omega
  have hacc : ¬ ShouldAccept h.global_filter msg = false := by
    rw [ha]; exact Bool.noConfusion
  rw [if_neg hacc, hmod, hwin]
  by_cases hfb : h.prevent_feedback = true ∧ msg.source = 2
  · rw [if_pos hfb, if_neg (by omega)]
  · rw [if_neg hfb]

/-- Claim C3: with feedback prevention enabled, a GUI-origin event whose
`uint32_t` millisecond distance from the last dispatched GUI event is
below 50 ms is suppressed — counted as filtered, no callback invoked, and
the handler state (in particular the window timestamp) otherwise
untouched; once at least 50 ms have elapsed the event is dispatched and
refreshes the window; the feedback mechanism never suppresses events of
non-GUI origin; and in the spec scenario (E1 at 1000 ms, E2 at 1020 ms,
E3 at 1060 ms, all GUI-origin) only E1 and E3 reach the registered
callback. -/
theorem C3_feedback_window_suppression :
    (∀ (h : MIDIEventHandler) (now_us : Nat) (msg : MIDIMessage),
       h.prevent_feedback = true → msg.source = 2 →
       h.last_gui_message_time ≤ now_us / 1000 % UINT32_MOD →
       now_us / 1000 % UINT32_MOD - h.last_gui_message_time < 50 →
       ProcessMessage h now_us msg =
         ({ h with events_filtered := h.events_filtered + 1 }, [])) ∧
    (∀ (h : MIDIEventHandler) (now_us : Nat) (msg : MIDIMessage),
       h.prevent_feedback = true → msg.source = 2 →
       ShouldAccept h.global_filter msg = true →
       h.last_gui_message_time ≤ now_us / 1000 % UINT32_MOD →
       50 ≤ now_us / 1000 % UINT32_MOD - h.last_gui_message_time →
       (ProcessMessage h now_us msg).2 = invokedCallbacks h.callbacks msg ∧
       (ProcessMessage h now_us msg).1.events_processed =
         h.events_processed + 1 ∧
       (ProcessMessage h now_us msg).1.last_gui_message_time =
         now_us / 1000 % UINT32_MOD) ∧
    (∀ (h : MIDIEventHandler) (now_us : Nat) (msg : MIDIMessage),
       msg.source ≠ 2 →
       ShouldProcessMessage h now_us msg =
         ShouldAccept h.global_filter msg) ∧
    ((ProcessMessage c3handler 1000000 c3guiMsg).2 = [1] ∧
     (ProcessMessage (ProcessMessage c3handler 1000000 c3guiMsg).1
        1020000 c3guiMsg).2 = [] ∧
     (ProcessMessage (ProcessMessage (ProcessMessage c3handler 1000000
        c3guiMsg).1 1020000 c3guiMsg).1 1060000 c3guiMsg).2 = [1]) := by
  refine ⟨?_, ?_, ?_, by decide, by decide, by decide⟩
  · intro h now_us msg hp hs hle hlt
    have hspm := ShouldProcessMessage_suppressed h now_us msg hp hs hle hlt
    rw [ProcessMessage, if_pos hspm]
  · intro h now_us msg hp hs ha hle hge
    have hspm := ShouldProcessMessage_window_elapsed h now_us msg ha hle hge
    have hnot : ¬ ShouldProcessMessage h now_us msg = false := by
      rw [hspm]; exact Bool.noConfusion
    rw [ProcessMessage, if_neg hnot]
    refine ⟨rfl, ?_, ?_⟩
    · show (UpdateMetrics (ExecuteCallbacks h msg).1 now_us
        msg).events_processed + 1 = h.events_processed + 1
      rw [UpdateMetrics]
      by_cases hs2 : msg.source = 2
      · rw [if_pos hs2]
        rfl
      · rw [if_neg hs2]
        rfl
    · show (UpdateMetrics (ExecuteCallbacks h msg).1 now_us
        msg).last_gui_message_time = _
      rw [UpdateMetrics, if_pos hs]
  · intro h now_us msg hs
    rw [ShouldProcessMessage]
    have hfb : ¬ (h.prevent_feedback = true ∧ msg.source = 2) := by
      intro hcon
      exact hs hcon.2
    by_cases hacc : ShouldAccept h.global_filter msg = false
    · rw [if_pos hacc, hacc]
    · rw [if_neg hacc, if_neg hfb]
      rw [Bool.not_eq_false] at hacc
      rw [hacc]

/-- Witness for C3 at concrete inputs: a suppressed event 20 ms after the
window was opened, a dispatched one at 60 ms, and a non-GUI event. -/
theorem C3_feedback_window_suppression_witness :
    (c3handlerAt1000.prevent_feedback = true ∧ c3guiMsg.source = 2 ∧
     c3handlerAt1000.last_gui_message_time ≤
       1020000 / 1000 % UINT32_MOD ∧
     1020000 / 1000 % UINT32_MOD -
       c3handlerAt1000.last_gui_message_time < 50 ∧
     ProcessMessage c3handlerAt1000 1020000 c3guiMsg =
       ({ c3handlerAt1000 with
           events_filtered := c3handlerAt1000.events_filtered + 1 }, [])) ∧
    (ShouldAccept c3handlerAt1000.global_filter c3guiMsg = true ∧
     50 ≤ 1060000 / 1000 % UINT32_MOD -
       c3handlerAt1000.last_gui_message_time ∧
     (ProcessMessage c3handlerAt1000 1060000 c3guiMsg).2 =
       invokedCallbacks c3handlerAt1000.callbacks c3guiMsg) ∧
    (c3hwMsg.source ≠ 2 ∧
     ShouldProcessMessage c3handlerAt1000 1020000 c3hwMsg =
       ShouldAccept c3handlerAt1000.global_filter c3hwMsg) := by
  refine ⟨⟨by decide, by decide, by decide, by decide, ?_⟩,
    ⟨by decide, by decide, ?_⟩, ⟨by decide, ?_⟩⟩
  · exact C3_feedback_window_suppression.1 c3handlerAt1000 1020000 c3guiMsg
      (by decide) (by decide) (by decide) (by decide)
  · exact (C3_feedback_window_suppression.2.1 c3handlerAt1000 1060000
      c3guiMsg (by decide) (by decide) (by decide) (by decide)
      (by decide)).1
  · exact C3_feedback_window_suppression.2.2.1 c3handlerAt1000 1020000
      c3hwMsg (by decide)

/-- The `while (processed < max_batch && Dequeue(...))` loop of
`MIDIEventHandler::ProcessPendingEvents` (midi_event_handler.cpp,
182-196), with the remaining batch budget as fuel.  Returns the handler,
the queue and the dispatched messages in processing order. -/
def drainLoop : Nat → MIDIEventHandler → MIDIMessageQueue → Nat →
    MIDIEventHandler × MIDIMessageQueue × List MIDIMessage
  | 0, h, q, _ => (h, q, [])
  | n + 1, h, q, now =>
    let r := Dequeue q
    match r.2 with
    | none => (h, r.1, [])
    | some m =>
      let pr := ProcessMessage h now m
      let rest := drainLoop n pr.1 r.1 now
      (rest.1, rest.2.1, m :: rest.2.2)

/-- `MIDIEventHandler::ProcessPendingEvents`: drain at most 32 events in
dequeue order.  (The final `current_queue_depth` refresh touches only an
omitted statistics field.) -/
def ProcessPendingEvents (h : MIDIEventHandler) (q : MIDIMessageQueue)
    (now : Nat) : MIDIEventHandler × MIDIMessageQueue × List MIDIMessage :=
  drainLoop 32 h q now

/-- The drain loop dispatches exactly the first `min fuel depth` buffered
messages, in buffer (arrival) order, whatever the handler state. -/
theorem drainLoop_spec :
    ∀ (n : Nat) (h : MIDIEventHandler) (q : MIDIMessageQueue) (now : Nat),
      q.read_index ≤ q.write_index → q.write_index ≤ 4095 →
      (drainLoop n h q now).2.2 =
        (List.range (min n (q.write_index - q.read_index))).map
          (fun i => q.buffer (q.read_index + i)) := by
  intro n
  induction n with
  | zero => intro h q now _ _; simp [drainLoop]
  | succ n ih =>
    intro h q now hrw hw
    by_cases hempty : q.read_index = q.write_index
    · have hstep := Dequeue_of_empty q hempty
      have hunf : drainLoop (n + 1) h q now = (h, (Dequeue q).1, []) := by
        rw [drainLoop, hstep]
      rw [hunf, hempty]
      simp
    · have hstep := Dequeue_of_notEmpty q hempty
      have hmsg : (Dequeue q).2 = some (q.buffer q.read_index) := by
        rw [hstep]
      have hri : (Dequeue q).1.read_index = q.read_index + 1 := by
        rw [hstep]
        show GetNextIndex q.read_index = q.read_index + 1
        rw [GetNextIndex, MIDI_QUEUE_SIZE, Nat.mod_eq_of_lt (by omega)]
      have hwi : (Dequeue q).1.write_index = q.write_index := by rw [hstep]
      have hbuf : (Dequeue q).1.buffer = q.buffer := by rw [hstep]
      have hunf : drainLoop (n + 1) h q now =
          ((drainLoop n (ProcessMessage h now (q.buffer q.read_index)).1
              (Dequeue q).1 now).1,
           (drainLoop n (ProcessMessage h now (q.buffer q.read_index)).1
              (Dequeue q).1 now).2.1,
           q.buffer q.read_index ::
             (drainLoop n (ProcessMessage h now (q.buffer q.read_index)).1
               (Dequeue q).1 now).2.2) := by
        rw [drainLoop, hmsg]
      have ihq := ih (ProcessMessage h now (q.buffer q.read_index)).1
        (Dequeue q).1 now (by rw [hri, hwi]; omega) (by rw [hwi]; omega)
      rw [hunf]
      show q.buffer q.read_index :: _ = _
      rw [ihq, hri, hwi, hbuf]
      have hmin : min (n + 1) (q.write_index - q.read_index) =
          min n (q.write_index - (q.read_index + 1)) + 1 := by omega
      rw [hmin, List.range_succ_eq_map, List.map_cons, List.map_map,
        Nat.add_zero]
      have hfun : (fun i => q.buffer (q.read_index + 1 + i)) =
          ((fun i => q.buffer (q.read_index + i)) ∘ Nat.succ) := by
        funext i
        simp only [Function.comp_apply]
        congr 1
        omega
      rw [hfun]
      have hz : q.read_index + 0 = q.read_index := rfl
      rw [hz]

/-- Claim C8: `ProcessPendingEvents` dispatches at most 32 events per
call, strictly in dequeue (arrival) order — the dispatched batch is
exactly the first `min 32 depth` buffered events in FIFO position order,
for every handler state, so the priority fields of the messages (and the
handler's priority map) never reorder a batch. -/
theorem C8_batch_drains_in_arrival_order (h : MIDIEventHandler)
    (q : MIDIMessageQueue) (now : Nat)
    (hrw : q.read_index ≤ q.write_index) (hw : q.write_index ≤ 4095) :
    (ProcessPendingEvents h q now).2.2 =
      (List.range (min 32 (GetQueueDepth q))).map
        (fun i => q.buffer (q.read_index + i)) ∧
    (ProcessPendingEvents h q now).2.2.length ≤ 32 := by
  have hdepth : GetQueueDepth q = q.write_index - q.read_index := by
    rw [GetQueueDepth, if_pos hrw]
  have hspec := drainLoop_spec 32 h q now hrw hw
  constructor
  · rw [hdepth]
    exact hspec
  · rw [show (ProcessPendingEvents h q now).2.2 = _ from hspec]
    rw [List.length_map, List.length_range]
    omega

/-- A low-priority system-exclusive event. -/
def c8sysexMsg : MIDIMessage :=
  { defaultMsg with status := 0xF0, priority := 3 }

/-- A high-priority note-on event. -/
def c8noteMsg : MIDIMessage :=
  { defaultMsg with
      status := 0x90, data1 := 3, data2 := 100, priority := 1 }

/-- A queue where the SysEx event arrived before the note-on. -/
def c8queue : MIDIMessageQueue :=
  { initQueue with
      buffer := setSlot (setSlot initQueue.buffer 0 c8sysexMsg) 1 c8noteMsg,
      write_index := 2 }

/-- Witness for C8: a queue holding a low-priority SysEx event enqueued
before a high-priority note-on is drained SysEx first. -/
theorem C8_batch_drains_in_arrival_order_witness :
    (c8queue.read_index ≤ c8queue.write_index ∧
     c8queue.write_index ≤ 4095) ∧
    (ProcessPendingEvents c3handler c8queue 0).2.2 =
      [c8sysexMsg, c8noteMsg] ∧
    c8sysexMsg.priority = 3 ∧ c8noteMsg.priority = 1 := by
  refine ⟨⟨by decide, by decide⟩, ?_, by decide, by decide⟩
  have h := (C8_batch_drains_in_arrival_order c3handler c8queue 0
    (by decide) (by decide)).1
  rw [h]
  decide

theorem RegisterCallback_of_cap (h : MIDIEventHandler)
    (f : MIDIEventFilter) (hcap : MAX_CALLBACKS ≤ h.callbacks.length) :
    RegisterCallback h f = (h, 0) := by
  simp [RegisterCallback, hcap]

theorem RegisterCallback_of_room (h : MIDIEventHandler)
    (f : MIDIEventFilter) (hroom : ¬ MAX_CALLBACKS ≤ h.callbacks.length) :
    RegisterCallback h f =
      ({ h with
          callbacks := h.callbacks ++
            [{ id := h.next_callback_id, filter := f, enabled := true }],
          next_callback_id := (h.next_callback_id + 1) % UINT32_MOD },
       h.next_callback_id) := by
  simp [RegisterCallback, hroom]

theorem RegisterCallback_room_id (h : MIDIEventHandler)
    (f : MIDIEventFilter) (hroom : ¬ MAX_CALLBACKS ≤ h.callbacks.length) :
    (RegisterCallback h f).2 = h.next_callback_id := by
  rw [RegisterCallback_of_room h f hroom]

theorem RegisterCallback_room_callbacks (h : MIDIEventHandler)
    (f : MIDIEventFilter) (hroom : ¬ MAX_CALLBACKS ≤ h.callbacks.length) :
    (RegisterCallback h f).1.callbacks =
      h.callbacks ++
        [({ id := h.next_callback_id, filter := f, enabled := true } :
          CallbackEntry)] := by
  rw [RegisterCallback_of_room h f hroom]

/-- One callback-management call on the handler. -/
inductive CbOp where
  | register (f : MIDIEventFilter)
  | unregister (i : Nat)
  | setEnabled (i : Nat) (b : Bool)
deriving DecidableEq, Repr

/-- Apply one callback-management call. -/
def applyCbOp (h : MIDIEventHandler) : CbOp → MIDIEventHandler
  | .register f => (RegisterCallback h f).1
  | .unregister i => UnregisterCallback h i
  | .setEnabled i b => SetCallbackEnabled h i b

/-- The ids handed out along a run of callback-management calls: `some`
the returned id for each successful registration, `none` otherwise. -/
def cbTrace : List CbOp → MIDIEventHandler → List (Option Nat)
  | [], _ => []
  | op :: rest, h =>
    (match op with
     | .register f =>
       if MAX_CALLBACKS ≤ h.callbacks.length then none
       else some (RegisterCallback h f).2
     | _ => none) :: cbTrace rest (applyCbOp h op)

theorem cbTrace_lb :
    ∀ (L : List CbOp) (h : MIDIEventHandler),
      h.next_callback_id + L.length < UINT32_MOD →
      ∀ i r, (cbTrace L h).getD i none = some r →
        h.next_callback_id ≤ r := by
  intro L
  induction L with
  | nil =>
    intro h _ i r hr
    simp [cbTrace] at hr
  | cons op rest ih =>
    intro h hbound i r hr
    simp only [List.length_cons] at hbound
    match op with
    | .register f =>
      have hunf : cbTrace (CbOp.register f :: rest) h =
          (if MAX_CALLBACKS ≤ h.callbacks.length then none
           else some (RegisterCallback h f).2) ::
            cbTrace rest (RegisterCallback h f).1 := by
        simp [cbTrace, applyCbOp]
      rw [hunf] at hr
      by_cases hcap : MAX_CALLBACKS ≤ h.callbacks.length
      · have hnext : (RegisterCallback h f).1.next_callback_id =
            h.next_callback_id := by
          rw [RegisterCallback_of_cap h f hcap]
        rw [if_pos hcap] at hr
        match i with
        | 0 => simp at hr
        | i' + 1 =>
          rw [List.getD_cons_succ] at hr
          have := ih (RegisterCallback h f).1 (by rw [hnext]; omega) i' r hr
          rw [hnext] at this
          exact this
      · have hreg := RegisterCallback_of_room h f hcap
        have hnext : (RegisterCallback h f).1.next_callback_id =
            (h.next_callback_id + 1) % UINT32_MOD := by rw [hreg]
        have hmod : (h.next_callback_id + 1) % UINT32_MOD =
            h.next_callback_id + 1 := Nat.mod_eq_of_lt (by omega)
        rw [if_neg hcap] at hr
        match i with
        | 0 =>
          rw [List.getD_cons_zero] at hr
          have hrid : (RegisterCallback h f).2 = h.next_callback_id := by
            rw [hreg]
          rw [hrid] at hr
          have : r = h.next_callback_id := (Option.some.injEq _ _ ▸ hr).symm
          omega
        | i' + 1 =>
          rw [List.getD_cons_succ] at hr
          have := ih (RegisterCallback h f).1
            (by rw [hnext, hmod]; omega) i' r hr
          rw [hnext, hmod] at this
          omega
    | .unregister k =>
      have hunf : cbTrace (CbOp.unregister k :: rest) h =
          none :: cbTrace rest (UnregisterCallback h k) := by
        simp [cbTrace, applyCbOp]
      rw [hunf] at hr
      have hnext : (UnregisterCallback h k).next_callback_id =
          h.next_callback_id := rfl
      match i with
      | 0 => simp at hr
      | i' + 1 =>
        rw [List.getD_cons_succ] at hr
        have := ih (UnregisterCallback h k) (by rw [hnext]; omega) i' r hr
        rw [hnext] at this
        exact this
    | .setEnabled k b =>
      have hunf : cbTrace (CbOp.setEnabled k b :: rest) h =
          none :: cbTrace rest (SetCallbackEnabled h k b) := by
        simp [cbTrace, applyCbOp]
      rw [hunf] at hr
      have hnext : (SetCallbackEnabled h k b).next_callback_id =
          h.next_callback_id := rfl
      match i with
      | 0 => simp at hr
      | i' + 1 =>
        rw [List.getD_cons_succ] at hr
        have := ih (SetCallbackEnabled h k b) (by rw [hnext]; omega) i' r hr
        rw [hnext] at this
        exact this

theorem cbTrace_strict_mono :
    ∀ (L : List CbOp) (h : MIDIEventHandler),
      h.next_callback_id + L.length < UINT32_MOD →
      ∀ i j ri rj, i < j →
        (cbTrace L h).getD i none = some ri →
        (cbTrace L h).getD j none = some rj →
        ri < rj := by
  intro L
  induction L with
  | nil =>
    intro h _ i j ri rj _ hi _
    simp [cbTrace] at hi
  | cons op rest ih =>
    intro h hbound i j ri rj hij hi hj
    simp only [List.length_cons] at hbound
    match op with
    | .register f =>
      have hunf : cbTrace (CbOp.register f :: rest) h =
          (if MAX_CALLBACKS ≤ h.callbacks.length then none
           else some (RegisterCallback h f).2) ::
            cbTrace rest (RegisterCallback h f).1 := by
        simp [cbTrace, applyCbOp]
      rw [hunf] at hi hj
      by_cases hcap : MAX_CALLBACKS ≤ h.callbacks.length
      · have hnext : (RegisterCallback h f).1.next_callback_id =
            h.next_callback_id := by
          rw [RegisterCallback_of_cap h f hcap]
        rw [if_pos hcap] at hi hj
        match i, j with
        | 0, _ => simp at hi
        | i' + 1, j' + 1 =>
          rw [List.getD_cons_succ] at hi hj
          exact ih (RegisterCallback h f).1 (by rw [hnext]; omega)
            i' j' ri rj (by omega) hi hj
      · have hreg := RegisterCallback_of_room h f hcap
        have hnext : (RegisterCallback h f).1.next_callback_id =
            (h.next_callback_id + 1) % UINT32_MOD := by rw [hreg]
        have hmod : (h.next_callback_id + 1) % UINT32_MOD =
            h.next_callback_id + 1 := Nat.mod_eq_of_lt (by omega)
        rw [if_neg hcap] at hi hj
        match i, j with
        | 0, j' + 1 =>
          rw [List.getD_cons_zero] at hi
          have hrid : (RegisterCallback h f).2 = h.next_callback_id := by
            rw [hreg]
          rw [hrid] at hi
          have hri : ri = h.next_callback_id :=
            (Option.some.injEq _ _ ▸ hi).symm
          rw [List.getD_cons_succ] at hj
          have hlb := cbTrace_lb rest (RegisterCallback h f).1
            (by rw [hnext, hmod]; omega) j' rj hj
          rw [hnext, hmod] at hlb
          omega
        | i' + 1, j' + 1 =>
          rw [List.getD_cons_succ] at hi hj
          exact ih (RegisterCallback h f).1
            (by rw [hnext, hmod]; omega) i' j' ri rj (by omega) hi hj
    | .unregister k =>
      have hunf : cbTrace (CbOp.unregister k :: rest) h =
          none :: cbTrace rest (UnregisterCallback h k) := by
        simp [cbTrace, applyCbOp]
      rw [hunf] at hi hj
      have hnext : (UnregisterCallback h k).next_callback_id =
          h.next_callback_id := rfl
      match i, j with
      | 0, _ => simp at hi
      | i' + 1, j' + 1 =>
        rw [List.getD_cons_succ] at hi hj
        exact ih (UnregisterCallback h k) (by rw [hnext]; omega)
          i' j' ri rj (by omega) hi hj
    | .setEnabled k b =>
      have hunf : cbTrace (CbOp.setEnabled k b :: rest) h =
          none :: cbTrace rest (SetCallbackEnabled h k b) := by
        simp [cbTrace, applyCbOp]
      rw [hunf] at hi hj
      have hnext : (SetCallbackEnabled h k b).next_callback_id =
          h.next_callback_id := rfl
      match i, j with
      | 0, _ => simp at hi
      | i' + 1, j' + 1 =>
        rw [List.getD_cons_succ] at hi hj
        exact ih (SetCallbackEnabled h k b) (by rw [hnext]; omega)
          i' j' ri rj (by omega) hi hj

/-- A throwaway entry for positional comparisons. -/
def dummyEntry : CallbackEntry :=
  { id := 0, filter := acceptAllFilter, enabled := true }

theorem eraseFirstId_sublist :
    ∀ (l : List CallbackEntry) (i : Nat), (eraseFirstId l i).Sublist l := by
  intro l i
  induction l with
  | nil => simp [eraseFirstId]
  | cons e rest ih =>
    rw [eraseFirstId]
    by_cases he : e.id = i
    · rw [if_pos he]
      exact List.sublist_cons_self e rest
    · rw [if_neg he]
      exact List.Sublist.cons₂ e ih

theorem eraseFirstId_length :
    ∀ (l : List CallbackEntry) (i : Nat),
      l.length - 1 ≤ (eraseFirstId l i).length ∧
      (eraseFirstId l i).length ≤ l.length := by
  intro l i
  induction l with
  | nil => simp [eraseFirstId]
  | cons e rest ih =>
    rw [eraseFirstId]
    by_cases he : e.id = i
    · rw [if_pos he]
      simp only [List.length_cons]
      omega
    · rw [if_neg he]
      simp only [List.length_cons]
      omega

theorem setEnabledFirst_length :
    ∀ (l : List CallbackEntry) (i : Nat) (b : Bool),
      (setEnabledFirst l i b).length = l.length := by
  intro l i b
  induction l with
  | nil => rfl
  | cons e rest ih =>
    rw [setEnabledFirst]
    by_cases he : e.id = i
    · rw [if_pos he]
      rfl
    · rw [if_neg he]
      simp only [List.length_cons, ih]

theorem setEnabledFirst_at_most_one :
    ∀ (l : List CallbackEntry) (i : Nat) (b : Bool),
      ∃ n, ∀ k, k ≠ n →
        (setEnabledFirst l i b).getD k dummyEntry = l.getD k dummyEntry := by
  intro l i b
  induction l with
  | nil => exact ⟨0, fun k _ => rfl⟩
  | cons e rest ih =>
    rw [setEnabledFirst]
    by_cases he : e.id = i
    · rw [if_pos he]
      refine ⟨0, fun k hk => ?_⟩
      match k with
      | 0 => exact absurd rfl hk
      | k' + 1 => rw [List.getD_cons_succ, List.getD_cons_succ]
    · rw [if_neg he]
      obtain ⟨n, hn⟩ := ih
      refine ⟨n + 1, fun k hk => ?_⟩
      match k with
      | 0 => rw [List.getD_cons_zero, List.getD_cons_zero]
      | k' + 1 =>
        rw [List.getD_cons_succ, List.getD_cons_succ]
        exact hn k' (by omega)

/-- A register/unregister pair, repeated: the live callback list stays
empty while the 32-bit id counter keeps advancing. -/
def regUnregCycle : Nat → MIDIEventHandler
  | 0 => initHandler
  | n + 1 =>
    let r := RegisterCallback (regUnregCycle n) acceptAllFilter
    UnregisterCallback r.1 r.2

theorem regUnregCycle_spec :
    ∀ n, (regUnregCycle n).callbacks = [] ∧
         (regUnregCycle n).next_callback_id = (1 + n) % UINT32_MOD := by
  intro n
  induction n with
  | zero => exact ⟨rfl, rfl⟩
  | succ n ih =>
    obtain ⟨hcb, hnext⟩ := ih
    have hroom : ¬ MAX_CALLBACKS ≤ (regUnregCycle n).callbacks.length := by
      rw [hcb]
      decide
    have hreg := RegisterCallback_of_room (regUnregCycle n)
      acceptAllFilter hroom
    have hunf : regUnregCycle (n + 1) =
        UnregisterCallback
          (RegisterCallback (regUnregCycle n) acceptAllFilter).1
          (RegisterCallback (regUnregCycle n) acceptAllFilter).2 := by
      rw [regUnregCycle]
    constructor
    · rw [hunf, hreg]
      show eraseFirstId ((regUnregCycle n).callbacks ++
        [{ id := (regUnregCycle n).next_callback_id,
           filter := acceptAllFilter, enabled := true }])
        (regUnregCycle n).next_callback_id = []
      rw [hcb]
      rw [List.nil_append, eraseFirstId]
      rw [if_pos rfl]
    · rw [hunf, hreg]
      show ((regUnregCycle n).next_callback_id + 1) % UINT32_MOD = _
      rw [hnext]
      have hUM : UINT32_MOD = 4294967296 := rfl
      rw [hUM]
      omega

/-- The id returned by the registration performed in cycle `n`. -/
def cycleRegId (n : Nat) : Nat :=
  (RegisterCallback (regUnregCycle n) acceptAllFilter).2

/-- Claim C10 counterexample.  The id counter is a `uint32_t`: after
`2 ^ 32 - 1` successful register/unregister cycles (all below the
32-callback cap) the next successful registration — it does append an
entry — returns id 0, which is neither nonzero nor greater than the id 1
returned by the registration of cycle 0 of the same run. -/
theorem C10_counterexample_id_wraps :
    cycleRegId 0 = 1 ∧
    cycleRegId (2 ^ 32 - 1) = 0 ∧
    (RegisterCallback (regUnregCycle (2 ^ 32 - 1))
        acceptAllFilter).1.callbacks.length = 1 ∧
    ¬ (cycleRegId 0 < cycleRegId (2 ^ 32 - 1)) := by
  have hUM : UINT32_MOD = 4294967296 := rfl
  obtain ⟨hcb, hnext⟩ := regUnregCycle_spec (2 ^ 32 - 1)
  have hroom : ¬ MAX_CALLBACKS ≤
      (regUnregCycle (2 ^ 32 - 1)).callbacks.length := by
    rw [hcb]
    decide
  have hreg := RegisterCallback_of_room (regUnregCycle (2 ^ 32 - 1))
    acceptAllFilter hroom
  have hid : cycleRegId (2 ^ 32 - 1) = 0 := by
    rw [cycleRegId, RegisterCallback_room_id _ _ hroom, hnext, hUM]
    norm_num
  have hid0 : cycleRegId 0 = 1 := by decide
  refine ⟨hid0, hid, ?_, ?_⟩
  · rw [RegisterCallback_room_callbacks _ _ hroom, hcb]
    rfl
  · rw [hid, hid0]
    omega

/-- Claim C10 (amended): along any run of callback-management calls on a
fresh handler that performs fewer than `2 ^ 32 - 1` registrations, every
id returned by a successful `RegisterCallback` is nonzero and strictly
greater than every previously returned id (the counter starts at 1 and is
bumped once per successful registration); `RegisterCallback` at the
32-callback cap returns 0 and leaves the handler unchanged; and
regardless of ids, `UnregisterCallback` removes at most one entry (the
first match) and `SetCallbackEnabled` modifies at most one entry. -/
theorem C10_registration_ids :
    (∀ (L : List CbOp), L.length < UINT32_MOD - 1 →
       (∀ i r, (cbTrace L initHandler).getD i none = some r → 1 ≤ r) ∧
       (∀ i j ri rj, i < j →
          (cbTrace L initHandler).getD i none = some ri →
          (cbTrace L initHandler).getD j none = some rj →
          ri < rj)) ∧
    (∀ (h : MIDIEventHandler) (f : MIDIEventFilter),
       MAX_CALLBACKS ≤ h.callbacks.length →
       RegisterCallback h f = (h, 0)) ∧
    (∀ (h : MIDIEventHandler) (i : Nat),
       (UnregisterCallback h i).callbacks.Sublist h.callbacks ∧
       h.callbacks.length - 1 ≤ (UnregisterCallback h i).callbacks.length) ∧
    (∀ (h : MIDIEventHandler) (i : Nat) (b : Bool),
       (SetCallbackEnabled h i b).callbacks.length = h.callbacks.length ∧
       ∃ n, ∀ k, k ≠ n →
         (SetCallbackEnabled h i b).callbacks.getD k dummyEntry =
           h.callbacks.getD k dummyEntry) := by
  refine ⟨?_, RegisterCallback_of_cap, ?_, ?_⟩
  · intro L hlen
    have h1 : initHandler.next_callback_id = 1 := rfl
    have hUM : UINT32_MOD = 4294967296 := rfl
    constructor
    · intro i r hr
      have := cbTrace_lb L initHandler
        (by rw [h1, hUM]; rw [hUM] at hlen; omega) i r hr
      rw [h1] at this
      exact this
    · intro i j ri rj hij hi hj
      exact cbTrace_strict_mono L initHandler
        (by rw [h1, hUM]; rw [hUM] at hlen; omega) i j ri rj hij hi hj
  · intro h i
    exact ⟨eraseFirstId_sublist h.callbacks i,
      (eraseFirstId_length h.callbacks i).1⟩
  · intro h i b
    exact ⟨setEnabledFirst_length h.callbacks i b,
      setEnabledFirst_at_most_one h.callbacks i b⟩

/-- A handler whose callback vector is at the 32-entry cap. -/
def c10fullHandler : MIDIEventHandler :=
  { initHandler with
      callbacks := List.replicate 32 dummyEntry, next_callback_id := 33 }

/-- Witness for C10 on a concrete three-operation run. -/
theorem C10_registration_ids_witness :
    (([CbOp.register acceptAllFilter, CbOp.unregister 1,
       CbOp.register acceptAllFilter] : List CbOp).length <
        UINT32_MOD - 1) ∧
    ((cbTrace [CbOp.register acceptAllFilter, CbOp.unregister 1,
        CbOp.register acceptAllFilter] initHandler).getD 0 none =
      some 1) ∧
    ((cbTrace [CbOp.register acceptAllFilter, CbOp.unregister 1,
        CbOp.register acceptAllFilter] initHandler).getD 2 none =
      some 2) ∧
    (1 : Nat) < 2 ∧ (0 : Nat) < 2 ∧
    MAX_CALLBACKS ≤ c10fullHandler.callbacks.length ∧
    RegisterCallback c10fullHandler acceptAllFilter =
      (c10fullHandler, 0) := by
  refine ⟨by decide, by decide, by decide, ?_, by decide, by decide, ?_⟩
  · exact (C10_registration_ids.1 [CbOp.register acceptAllFilter,
      CbOp.unregister 1, CbOp.register acceptAllFilter] (by decide)).2
      0 2 1 2 (by decide) (by decide) (by decide)
  · exact C10_registration_ids.2.1 c10fullHandler acceptAllFilter
      (by decide)

/-!
Embedding of `USBRawMIDI::SendSysEx` (usb_haiku_midi.cpp, lines 299-367).
The loop walks the payload three bytes at a time: a full packet that is
not the last gets CIN 0x04 (SysEx start/continue); the last packet gets
CIN 0x07/0x06/0x05 for 3/2/1 remaining bytes, unused bytes zeroed.  The
frames are modelled as the list of packets handed to `BulkTransfer`, the
transfer itself (and its failure-abort path) being outside the claim. -/

/-- A 4-byte USB MIDI event packet (cable number 0 throughout). -/
structure USBMIDIPacket where
  cin : Nat
  midi0 : Nat
  midi1 : Nat
  midi2 : Nat
deriving DecidableEq, Repr

/-- A zero packet, used as a lookup default. -/
def zeroPacket : USBMIDIPacket :=
  { cin := 0, midi0 := 0, midi1 := 0, midi2 := 0 }

/-- The packets emitted by `SendSysEx` for a payload, in emission order. -/
def sysexChunks : List Nat → List USBMIDIPacket
  | [] => []
  | [b1] => [{ cin := 0x05, midi0 := b1, midi1 := 0, midi2 := 0 }]
  | [b1, b2] => [{ cin := 0x06, midi0 := b1, midi1 := b2, midi2 := 0 }]
  | [b1, b2, b3] => [{ cin := 0x07, midi0 := b1, midi1 := b2, midi2 := b3 }]
  | b1 :: b2 :: b3 :: rest =>
    { cin := 0x04, midi0 := b1, midi1 := b2, midi2 := b3 } ::
      sysexChunks rest

/-- The payload bytes a frame declares, per its CIN type code: all three
for start/continue (0x4) and end-with-3 (0x7), two for 0x6, one for
0x5. -/
def sysexPayloadOf (p : USBMIDIPacket) : List Nat :=
  if p.cin = 0x04 ∨ p.cin = 0x07 then [p.midi0, p.midi1, p.midi2]
  else if p.cin = 0x06 then [p.midi0, p.midi1]
  else if p.cin = 0x05 then [p.midi0]
  else []

/-- Concatenate the declared payload bytes of the frames in order. -/
def decodeChunks : List USBMIDIPacket → List Nat
  | [] => []
  | p :: rest => sysexPayloadOf p ++ decodeChunks rest

theorem sysexChunks_cons3 (b1 b2 b3 : Nat) (rest : List Nat)
    (hne : rest ≠ []) :
    sysexChunks (b1 :: b2 :: b3 :: rest) =
      { cin := 0x04, midi0 := b1, midi1 := b2, midi2 := b3 } ::
        sysexChunks rest := by
  rw [sysexChunks]
  exact hne

theorem sysexChunks_length :
    ∀ L : List Nat, L ≠ [] →
      (sysexChunks L).length = (L.length + 2) / 3 := by
  intro L
  induction L using sysexChunks.induct with
  | case1 => intro hcon; exact absurd rfl hcon
  | case2 b1 =>
    intro _
    rw [sysexChunks]
    simp
  | case3 b1 b2 =>
    intro _
    rw [sysexChunks]
    simp
  | case4 b1 b2 b3 =>
    intro _
    rw [sysexChunks]
    simp
  | case5 b1 b2 b3 rest hne ih =>
    intro _
    have hr : rest ≠ [] := hne
    rw [sysexChunks_cons3 b1 b2 b3 rest hr]
    simp only [List.length_cons, ih hr]
    omega

theorem sysexChunks_roundtrip :
    ∀ L : List Nat, decodeChunks (sysexChunks L) = L := by
  intro L
  induction L using sysexChunks.induct with
  | case1 =>
    rw [sysexChunks]
    rfl
  | case2 b1 => rw [sysexChunks]; rfl
  | case3 b1 b2 => rw [sysexChunks]; rfl
  | case4 b1 b2 b3 => rw [sysexChunks]; rfl
  | case5 b1 b2 b3 rest hne ih =>
    have hr : rest ≠ [] := hne
    rw [sysexChunks_cons3 b1 b2 b3 rest hr, decodeChunks, ih]
    rfl

theorem sysexChunks_nonlast_cin :
    ∀ (L : List Nat) (i : Nat), i + 1 < (sysexChunks L).length →
      ((sysexChunks L).getD i zeroPacket).cin = 0x04 := by
  intro L
  induction L using sysexChunks.induct with
  | case1 => intro i hi; rw [sysexChunks] at hi; simp at hi
  | case2 b1 => intro i hi; rw [sysexChunks] at hi; simp at hi
  | case3 b1 b2 => intro i hi; rw [sysexChunks] at hi; simp at hi
  | case4 b1 b2 b3 => intro i hi; rw [sysexChunks] at hi; simp at hi
  | case5 b1 b2 b3 rest hne ih =>
    intro i hi
    have hr : rest ≠ [] := hne
    rw [sysexChunks_cons3 b1 b2 b3 rest hr] at hi ⊢
    match i with
    | 0 => rfl
    | i' + 1 =>
      rw [List.getD_cons_succ]
      simp only [List.length_cons] at hi
      exact ih i' (by omega)

theorem sysexChunks_last_cin :
    ∀ L : List Nat, L ≠ [] →
      ((sysexChunks L).getD ((sysexChunks L).length - 1) zeroPacket).cin =
        (if L.length % 3 = 1 then 0x05
         else if L.length % 3 = 2 then 0x06 else 0x07) := by
  intro L
  induction L using sysexChunks.induct with
  | case1 => intro hcon; exact absurd rfl hcon
  | case2 b1 =>
    intro _
    rw [sysexChunks]
    simp
  | case3 b1 b2 =>
    intro _
    rw [sysexChunks]
    simp
  | case4 b1 b2 b3 =>
    intro _
    rw [sysexChunks]
    simp
  | case5 b1 b2 b3 rest hne ih =>
    intro _
    have hr : rest ≠ [] := hne
    have hlen := sysexChunks_length rest hr
    have hpos : 1 ≤ (sysexChunks rest).length := by
      rw [hlen]
      cases rest with
      | nil => exact absurd rfl hr
      | cons x xs =>
        simp only [List.length_cons]
        omega
    rw [sysexChunks_cons3 b1 b2 b3 rest hr]
    simp only [List.length_cons]
    have hidx : (sysexChunks rest).length + 1 - 1 =
        ((sysexChunks rest).length - 1) + 1 := by omega
    rw [hidx, List.getD_cons_succ, ih hr]
    have h3 : (rest.length + 1 + 1 + 1) % 3 = rest.length % 3 := by omega
    simp only [h3]

theorem sysexChunks_padding :
    ∀ (L : List Nat) (p : USBMIDIPacket), p ∈ sysexChunks L →
      (p.cin = 0x05 → p.midi1 = 0 ∧ p.midi2 = 0) ∧
      (p.cin = 0x06 → p.midi2 = 0) := by
  intro L
  induction L using sysexChunks.induct with
  | case1 => intro p hp; rw [sysexChunks] at hp; simp at hp
  | case2 b1 =>
    intro p hp
    rw [sysexChunks] at hp
    simp only [List.mem_singleton] at hp
    rw [hp]
    exact ⟨fun _ => ⟨rfl, rfl⟩, fun hcon => by simp at hcon⟩
  | case3 b1 b2 =>
    intro p hp
    rw [sysexChunks] at hp
    simp only [List.mem_singleton] at hp
    rw [hp]
    exact ⟨fun hcon => by simp at hcon, fun _ => rfl⟩
  | case4 b1 b2 b3 =>
    intro p hp
    rw [sysexChunks] at hp
    simp only [List.mem_singleton] at hp
    rw [hp]
    exact ⟨fun hcon => by simp at hcon, fun hcon => by simp at hcon⟩
  | case5 b1 b2 b3 rest hne ih =>
    intro p hp
    have hr : rest ≠ [] := hne
    rw [sysexChunks_cons3 b1 b2 b3 rest hr, List.mem_cons] at hp
    rcases hp with hp | hp
    · rw [hp]
      exact ⟨fun hcon => by simp at hcon, fun hcon => by simp at hcon⟩
    · exact ih p hp

/-- Claim C4: for every non-empty SysEx payload of length `L`, `SendSysEx`
emits exactly `ceil(L/3)` 4-byte frames; every frame except the last
carries type code 0x4, the last carries 0x5/0x6/0x7 according to whether
1, 2 or 3 bytes remain (with unused payload bytes zero), and
concatenating the payload bytes each frame's type code declares, in
emission order, reconstructs the payload exactly. -/
theorem C4_sysex_chunking_roundtrip :
    (∀ L : List Nat, L ≠ [] →
       (sysexChunks L).length = (L.length + 2) / 3) ∧
    (∀ (L : List Nat) (i : Nat), i + 1 < (sysexChunks L).length →
       ((sysexChunks L).getD i zeroPacket).cin = 0x04) ∧
    (∀ L : List Nat, L ≠ [] →
       ((sysexChunks L).getD ((sysexChunks L).length - 1)
           zeroPacket).cin =
         (if L.length % 3 = 1 then 0x05
          else if L.length % 3 = 2 then 0x06 else 0x07)) ∧
    (∀ (L : List Nat) (p : USBMIDIPacket), p ∈ sysexChunks L →
       (p.cin = 0x05 → p.midi1 = 0 ∧ p.midi2 = 0) ∧
       (p.cin = 0x06 → p.midi2 = 0)) ∧
    (∀ L : List Nat, decodeChunks (sysexChunks L) = L) :=
  ⟨sysexChunks_length, sysexChunks_nonlast_cin, sysexChunks_last_cin,
    sysexChunks_padding, sysexChunks_roundtrip⟩

/-- Witness for C4 on the concrete 4-byte payload `[10, 20, 30, 40]`:
two frames, the first 0x04, the second 0x05, decoding back exactly. -/
theorem C4_sysex_chunking_roundtrip_witness :
    (([10, 20, 30, 40] : List Nat) ≠ []) ∧
    (sysexChunks [10, 20, 30, 40]).length = 2 ∧
    ((sysexChunks [10, 20, 30, 40]).getD 0 zeroPacket).cin = 0x04 ∧
    ((sysexChunks [10, 20, 30, 40]).getD 1 zeroPacket).cin = 0x05 ∧
    decodeChunks (sysexChunks [10, 20, 30, 40]) = [10, 20, 30, 40] := by
  refine ⟨by decide, ?_, ?_, ?_, ?_⟩
  · rw [C4_sysex_chunking_roundtrip.1 [10, 20, 30, 40] (by decide)]
    decide
  · exact C4_sysex_chunking_roundtrip.2.1 [10, 20, 30, 40] 0 (by decide)
  · have h := C4_sysex_chunking_roundtrip.2.2.1 [10, 20, 30, 40]
      (by decide)
    simpa using h
  · exact C4_sysex_chunking_roundtrip.2.2.2.2 [10, 20, 30, 40]

/-!
Embedding of the transport send paths and the pause/resume handshake
(usb_haiku_midi.cpp and usb_raw_midi.cpp).  The USB transfer outcome and
the lock/endpoint/connection state are environment inputs; the latency
statistics are omitted as before. -/

/-- `APCMiniError` (apc_mini_defs.h, lines 188-198). -/
inductive APCMiniError where
  | APC_SUCCESS
  | APC_ERROR_DEVICE_NOT_FOUND
  | APC_ERROR_USB_OPEN_FAILED
  | APC_ERROR_USB_CLAIM_FAILED
  | APC_ERROR_USB_TRANSFER_FAILED
  | APC_ERROR_MIDI_INIT_FAILED
  | APC_ERROR_THREAD_CREATE_FAILED
  | APC_ERROR_INVALID_PARAMETER
  | APC_ERROR_TIMEOUT
deriving DecidableEq, Repr

/-- The two transport statistics counters the claims touch.  Both are
`uint32_t` fields of `APCMiniStats` (apc_mini_defs.h, lines 146 and 153),
so every increment is reduced modulo `2 ^ 32`. -/
structure USBStats where
  messages_sent : Nat
  error_count : Nat
deriving DecidableEq, Repr

/-- Environment of one `USBRawMIDI::SendMIDI` call in usb_haiku_midi.cpp:
whether `IsConnected()` and the roster device check pass, whether the
`BAutolock` is held, whether `endpoint_out` is non-null, and the byte
count (or negative error) returned by the USB transfer. -/
structure SendEnv where
  connected : Bool
  lock_acquired : Bool
  endpoint_present : Bool
  transfer_result : Int
deriving DecidableEq, Repr

/-- `USBRawMIDI::SendMIDI` (usb_haiku_midi.cpp, lines 235-297): the
not-connected, lock-failure and missing-endpoint paths return
`APC_ERROR_USB_TRANSFER_FAILED` without touching the statistics; a
transfer of exactly `sizeof(usb_midi_event_packet)` = 4 bytes bumps
`messages_sent` and succeeds; any other transfer outcome bumps
`error_count` and fails; the counters are 32-bit, so each bump is
`+1 mod 2 ^ 32`. -/
def SendMIDI_haiku (env : SendEnv) (stats : USBStats) :
    USBStats × APCMiniError :=
  if env.connected = false then
    (stats, .APC_ERROR_USB_TRANSFER_FAILED)
  else if env.lock_acquired = false then
    (stats, .APC_ERROR_USB_TRANSFER_FAILED)
  else if env.endpoint_present = false then
    (stats, .APC_ERROR_USB_TRANSFER_FAILED)
  else if env.transfer_result = 4 then
    ({ stats with
        messages_sent := (stats.messages_sent + 1) % UINT32_MOD },
     .APC_SUCCESS)
  else
    ({ stats with
        error_count := (stats.error_count + 1) % UINT32_MOD },
     .APC_ERROR_USB_TRANSFER_FAILED)

/-- `USBRawMIDI::SendMIDI` (usb_raw_midi.cpp, lines 97-121): a negative
`device_fd` returns `APC_ERROR_DEVICE_NOT_FOUND` without touching the
statistics; otherwise the packet send outcome `tr` decides between
bumping `messages_sent` (success) and bumping `error_count` (failure,
returning `tr`). -/
def SendMIDI_raw (device_fd : Int) (tr : APCMiniError)
    (stats : USBStats) : USBStats × APCMiniError :=
  if device_fd < 0 then (stats, .APC_ERROR_DEVICE_NOT_FOUND)
  else if tr = .APC_SUCCESS then
    ({ stats with
        messages_sent := (stats.messages_sent + 1) % UINT32_MOD },
     .APC_SUCCESS)
  else
    ({ stats with
        error_count := (stats.error_count + 1) % UINT32_MOD }, tr)

/-- Claim C6 counterexample.  A send while disconnected fails with
`APC_ERROR_USB_TRANSFER_FAILED` (haiku backend) or
`APC_ERROR_DEVICE_NOT_FOUND` (raw backend) but leaves the error counter
at 0 instead of incrementing it to 1. -/
theorem C6_counterexample_disconnected_send_not_counted :
    (SendMIDI_haiku
        { connected := false, lock_acquired := true,
          endpoint_present := true, transfer_result := 4 }
        { messages_sent := 0, error_count := 0 } =
      ({ messages_sent := 0, error_count := 0 },
       .APC_ERROR_USB_TRANSFER_FAILED)) ∧
    ((SendMIDI_haiku
        { connected := false, lock_acquired := true,
          endpoint_present := true, transfer_result := 4 }
        { messages_sent := 0, error_count := 0 }).1.error_count ≠ 0 + 1) ∧
    (SendMIDI_raw (-1) .APC_SUCCESS
        { messages_sent := 0, error_count := 0 } =
      ({ messages_sent := 0, error_count := 0 },
       .APC_ERROR_DEVICE_NOT_FOUND)) := by
  refine ⟨by decide, by decide, by decide⟩

/-- Claim C6 (amended): a send that fails during the attempted USB
transfer bumps the 32-bit error counter — by exactly 1 whenever the
`uint32_t` does not wrap, i.e. `+1 mod 2 ^ 32` — and returns a failure
code; a send that fails before any transfer is attempted (device not
connected / not found, lock not acquired, endpoint missing) returns a
distinct failure code with the counters untouched; a successful send
leaves the error counter unchanged and bumps the 32-bit sent counter.
Both backends return result codes — no path throws. -/
theorem C6_send_failure_error_counting :
    (∀ (env : SendEnv) (stats : USBStats),
       env.connected = true → env.lock_acquired = true →
       env.endpoint_present = true → env.transfer_result ≠ 4 →
       SendMIDI_haiku env stats =
         ({ stats with
             error_count := (stats.error_count + 1) % UINT32_MOD },
          .APC_ERROR_USB_TRANSFER_FAILED)) ∧
    (∀ (env : SendEnv) (stats : USBStats),
       env.connected = false ∨ env.lock_acquired = false ∨
         env.endpoint_present = false →
       (SendMIDI_haiku env stats).1 = stats ∧
       (SendMIDI_haiku env stats).2 = .APC_ERROR_USB_TRANSFER_FAILED) ∧
    (∀ (env : SendEnv) (stats : USBStats),
       env.connected = true → env.lock_acquired = true →
       env.endpoint_present = true → env.transfer_result = 4 →
       SendMIDI_haiku env stats =
         ({ stats with
             messages_sent := (stats.messages_sent + 1) % UINT32_MOD },
          .APC_SUCCESS)) ∧
    (∀ (fd : Int) (tr : APCMiniError) (stats : USBStats),
       fd < 0 →
       SendMIDI_raw fd tr stats = (stats, .APC_ERROR_DEVICE_NOT_FOUND)) ∧
    (∀ (fd : Int) (tr : APCMiniError) (stats : USBStats),
       0 ≤ fd → tr ≠ .APC_SUCCESS →
       SendMIDI_raw fd tr stats =
         ({ stats with
             error_count := (stats.error_count + 1) % UINT32_MOD }, tr)) ∧
    (∀ (fd : Int) (stats : USBStats),
       0 ≤ fd →
       SendMIDI_raw fd .APC_SUCCESS stats =
         ({ stats with
             messages_sent := (stats.messages_sent + 1) % UINT32_MOD },
          .APC_SUCCESS)) := by
  refine ⟨?_, ?_, ?_, ?_, ?_, ?_⟩
  · intro env stats hc hl he ht
    rw [SendMIDI_haiku, if_neg (by rw [hc]; exact Bool.noConfusion),
      if_neg (by rw [hl]; exact Bool.noConfusion),
      if_neg (by rw [he]; exact Bool.noConfusion), if_neg ht]
  · intro env stats hfail
    rw [SendMIDI_haiku]
    rcases hfail with hc | hl | he
    · rw [if_pos hc]
      exact ⟨rfl, rfl⟩
    · by_cases hc : env.connected = false
      · rw [if_pos hc]
        exact ⟨rfl, rfl⟩
      · rw [if_neg hc, if_pos hl]
        exact ⟨rfl, rfl⟩
    · by_cases hc : env.connected = false
      · rw [if_pos hc]
        exact ⟨rfl, rfl⟩
      · rw [if_neg hc]
        by_cases hl : env.lock_acquired = false
        · rw [if_pos hl]
          exact ⟨rfl, rfl⟩
        · rw [if_neg hl, if_pos he]
          exact ⟨rfl, rfl⟩
  · intro env stats hc hl he ht
    rw [SendMIDI_haiku, if_neg (by rw [hc]; exact Bool.noConfusion),
      if_neg (by rw [hl]; exact Bool.noConfusion),
      if_neg (by rw [he]; exact Bool.noConfusion), if_pos ht]
  · intro fd tr stats hfd
    rw [SendMIDI_raw, if_pos hfd]
  · intro fd tr stats hfd htr
    rw [SendMIDI_raw, if_neg (by omega), if_neg htr]
  · intro fd stats hfd
    rw [SendMIDI_raw, if_neg (by omega), if_pos rfl]

/-- Witness for C6 at concrete inputs: a failing transfer increments the
counter once; a successful transfer leaves it unchanged. -/
theorem C6_send_failure_error_counting_witness :
    (SendMIDI_haiku
        { connected := true, lock_acquired := true,
          endpoint_present := true, transfer_result := -1 }
        { messages_sent := 5, error_count := 2 } =
      ({ messages_sent := 5, error_count := 3 },
       .APC_ERROR_USB_TRANSFER_FAILED)) ∧
    (SendMIDI_haiku
        { connected := true, lock_acquired := true,
          endpoint_present := true, transfer_result := 4 }
        { messages_sent := 5, error_count := 2 } =
      ({ messages_sent := 6, error_count := 2 }, .APC_SUCCESS)) ∧
    (SendMIDI_raw 3 .APC_ERROR_USB_TRANSFER_FAILED
        { messages_sent := 0, error_count := 0 } =
      ({ messages_sent := 0, error_count := 1 },
       .APC_ERROR_USB_TRANSFER_FAILED)) := by
  refine ⟨?_, ?_, ?_⟩
  · exact C6_send_failure_error_counting.1
      { connected := true, lock_acquired := true,
        endpoint_present := true, transfer_result := -1 }
      { messages_sent := 5, error_count := 2 }
      (by decide) (by decide) (by decide) (by decide)
  · exact C6_send_failure_error_counting.2.2.1
      { connected := true, lock_acquired := true,
        endpoint_present := true, transfer_result := 4 }
      { messages_sent := 5, error_count := 2 }
      (by decide) (by decide) (by decide) (by decide)
  · exact C6_send_failure_error_counting.2.2.2.2.1 3
      .APC_ERROR_USB_TRANSFER_FAILED
      { messages_sent := 0, error_count := 0 }
      (by decide) (by decide)

/-!
The pause/resume handshake (usb_haiku_midi.cpp): `PauseReader` (lines
534-552) sets `pause_requested` and calls `acquire_sem_etc` with
`B_RELATIVE_TIMEOUT` of 100000 µs — by the semaphore contract the call
returns after `min ackDelay timeout` microseconds, where `ackDelay` is
the time until the reader releases `pause_sem` (`none` if it never
does, in which case the call returns exactly at the timeout).
`ResumeReader` (lines 554-566) clears the flag.  The reader thread's
pause loop (`ReaderThreadLoop`, lines 457-472) spins on
`pause_requested && !should_stop`, sleeping `snooze(1000)` µs per
iteration, so it re-checks the guard within one polling interval. -/

/-- `acquire_sem_etc` relative timeout used by `PauseReader`: 100 ms. -/
def PAUSE_ACK_TIMEOUT_US : Nat := 100000

/-- The pause-loop polling interval: `snooze(1000)`. -/
def READER_PAUSE_POLL_US : Nat := 1000

/-- The transport fields the pause/resume handshake touches. -/
structure TransportState where
  reader_thread : Int
  pause_sem : Int
  pause_requested : Bool
  is_paused : Bool
  should_stop : Bool
deriving DecidableEq, Repr

/-- `USBRawMIDI::PauseReader`: no-op when the reader thread or semaphore
is invalid; otherwise set the flag and wait on the acknowledgement
semaphore, bounded by the 100 ms relative timeout.  Returns the state
and the wait duration in microseconds. -/
def PauseReader (ts : TransportState) (ackDelay : Option Nat) :
    TransportState × Nat :=
  if ts.reader_thread < 0 ∨ ts.pause_sem < 0 then (ts, 0)
  else
    let ts2 := { ts with pause_requested := true }
    match ackDelay with
    | none => (ts2, PAUSE_ACK_TIMEOUT_US)
    | some d => (ts2, min d PAUSE_ACK_TIMEOUT_US)

/-- `USBRawMIDI::ResumeReader`: no-op when the reader thread is invalid;
otherwise clear the pause request. -/
def ResumeReader (ts : TransportState) : TransportState :=
  if ts.reader_thread < 0 then ts
  else { ts with pause_requested := false }

/-- The guard of the reader's pause loop:
`while (pause_requested && !should_stop)`. -/
def pauseLoopGuard (ts : TransportState) : Bool :=
  ts.pause_requested && !ts.should_stop

/-- Claim C5: `PauseReader` returns after at most the configured 100 ms
timeout whether or not the reader ever acknowledges — it never blocks
indefinitely — and, on a live transport, leaves the pause-requested flag
set; `ResumeReader` clears the flag, after which the pause-loop guard is
false, so a paused reader exits the loop at its next guard check — i.e.
within one `READER_PAUSE_POLL_US` (1 ms) polling interval — and
continues reading. -/
theorem C5_pause_bounded_resume_releases :
    (∀ (ts : TransportState) (ackDelay : Option Nat),
       (PauseReader ts ackDelay).2 ≤ PAUSE_ACK_TIMEOUT_US) ∧
    (∀ (ts : TransportState) (ackDelay : Option Nat),
       0 ≤ ts.reader_thread → 0 ≤ ts.pause_sem →
       (PauseReader ts ackDelay).1.pause_requested = true) ∧
    (∀ ts : TransportState, 0 ≤ ts.reader_thread →
       (ResumeReader ts).pause_requested = false ∧
       pauseLoopGuard (ResumeReader ts) = false) := by
  refine ⟨?_, ?_, ?_⟩
  · intro ts ackDelay
    rw [PauseReader]
    by_cases hv : ts.reader_thread < 0 ∨ ts.pause_sem < 0
    · rw [if_pos hv]
      exact Nat.zero_le _
    · rw [if_neg hv]
      match ackDelay with
      | none => exact Nat.le_refl _
      | some d => exact Nat.min_le_right _ _
  · intro ts ackDelay ht hs
    rw [PauseReader, if_neg (by omega)]
    match ackDelay with
    | none => rfl
    | some d => rfl
  · intro ts ht
    rw [ResumeReader, if_neg (by omega)]
    exact ⟨rfl, by rw [pauseLoopGuard]; rfl⟩

/-- Witness for C5 at concrete inputs: a live transport whose reader
never acknowledges still releases the caller at exactly the 100 ms
timeout, and resuming clears the guard. -/
theorem C5_pause_bounded_resume_releases_witness :
    ((PauseReader
        { reader_thread := 7, pause_sem := 3, pause_requested := false,
          is_paused := false, should_stop := false } none).2 ≤
      PAUSE_ACK_TIMEOUT_US) ∧
    ((0 : Int) ≤ (7 : Int)) ∧
    ((PauseReader
        { reader_thread := 7, pause_sem := 3, pause_requested := false,
          is_paused := false, should_stop := false }
        none).1.pause_requested = true) ∧
    (pauseLoopGuard (ResumeReader
        { reader_thread := 7, pause_sem := 3, pause_requested := true,
          is_paused := true, should_stop := false }) = false) := by
  refine ⟨?_, by decide, ?_, ?_⟩
  · exact C5_pause_bounded_resume_releases.1
      { reader_thread := 7, pause_sem := 3, pause_requested := false,
        is_paused := false, should_stop := false } none
  · exact C5_pause_bounded_resume_releases.2.1
      { reader_thread := 7, pause_sem := 3, pause_requested := false,
        is_paused := false, should_stop := false } none
      (by decide) (by decide)
  · exact (C5_pause_bounded_resume_releases.2.2
      { reader_thread := 7, pause_sem := 3, pause_requested := true,
        is_paused := true, should_stop := false } (by decide)).2

end AkaiAPCmini
